import Mathlib

/-!
Verification of the MaxaMem / DocGen generation pipeline.

Shallow embedding of `src/maxamem/backend/src/main.rs` (orchestrator,
communication-schema model, GitHub scaffolder) and of
`src/backend/src/services/project.rs` (project-status decoding).

Conventions used throughout:
* Rust `HashMap<K, V>` is modelled as an association list `List (K × V)`:
  the list order represents one concrete iteration order of the map, and
  two permutations of the same list represent the same map presented in
  two different iteration orders.
* Rust `u8` is modelled as `Nat` together with explicit range checks
  (... ≤ 255) where the Rust type system enforces representability.
* JSON is modelled at the `serde_json::Value` level by the `Json` type
  below; the text-level lexer of `serde_json` is an external library and
  is not part of this repository's code.
* Fallible Rust code returns `Except`.
-/

/-- JSON values, as in `serde_json::Value` (numbers restricted to `Int`,
which covers every number this schema uses, namely `u8` criticalities). -/
inductive Json where
  | null
  | bool (b : Bool)
  | num (n : Int)
  | str (s : String)
  | arr (elems : List Json)
  | obj (fields : List (String × Json))

/-- `FileConfig` from models/schema.rs (main.rs:500-510).  The serde
attribute `#[serde(rename = "type")]` maps the Rust field `file_type`
to the JSON key `"type"`. -/
structure FileConfig where
  criticality : Nat
  file_type : String
  purpose : String
  dependencies : List String
  communicates : Option (List (String × String))
  triggers : Option (List String)
  modifies : Option (List String)
  deriving DecidableEq, Repr

/-- `DirectoryConfig` from models/schema.rs (main.rs:489-498).  It is
recursive through the optional `directories` map, so it is an inductive
type; field projections are defined below. -/
inductive DirectoryConfig where
  | mk (criticality : Nat) (description : String)
       (files : List (String × FileConfig))
       (directories : Option (List (String × DirectoryConfig)))
       (receives_from : Option (List String))
       (sends_to : Option (List String))
       (protocols : Option (List String))

def DirectoryConfig.criticality : DirectoryConfig → Nat
  | .mk c _ _ _ _ _ _ => c

def DirectoryConfig.description : DirectoryConfig → String
  | .mk _ d _ _ _ _ _ => d

def DirectoryConfig.files : DirectoryConfig → List (String × FileConfig)
  | .mk _ _ f _ _ _ _ => f

def DirectoryConfig.directories : DirectoryConfig → Option (List (String × DirectoryConfig))
  | .mk _ _ _ d _ _ _ => d

def DirectoryConfig.receives_from : DirectoryConfig → Option (List String)
  | .mk _ _ _ _ r _ _ => r

def DirectoryConfig.sends_to : DirectoryConfig → Option (List String)
  | .mk _ _ _ _ _ s _ => s

def DirectoryConfig.protocols : DirectoryConfig → Option (List String)
  | .mk _ _ _ _ _ _ p => p

/-- `EventFlow`: the type is referenced by `CommunicationSchema.event_flows`
and used in `generate_directory_docs` (main.rs:463-465, `flow.name`,
`flow.description`) but its declaration is not under src/.
Modelled from the spec: §3 "event_flows (mapping of directory path →
ordered list of named flow descriptions)". -/
structure EventFlow where
  name : String
  description : String
  deriving DecidableEq, Repr

/-- Modelled from the spec: `GlobalProtocols` is referenced at main.rs:481
but not declared under src/; §3 describes it as the "global protocol
description", modelled as a text payload. -/
structure GlobalProtocols where
  description : String
  deriving DecidableEq, Repr

/-- Modelled from the spec: `CommunicationMatrix` is referenced at
main.rs:484 but not declared under src/; §3 lists "a communication
matrix", modelled as a text payload. -/
structure CommunicationMatrix where
  matrix : String
  deriving DecidableEq, Repr

/-- Modelled from the spec: `PlatformSpecific` is referenced at
main.rs:485 but not declared under src/; §3 lists "platform-specific
notes", modelled as a text payload. -/
structure PlatformSpecific where
  notes : String
  deriving DecidableEq, Repr

/-- Modelled from the spec: `ErrorPropagation` is referenced at
main.rs:486 but not declared under src/; §3 lists "error-propagation
rules", modelled as a text payload. -/
structure ErrorPropagation where
  rules : String
  deriving DecidableEq, Repr

/-- `CommunicationSchema` from models/schema.rs (main.rs:476-487). -/
structure CommunicationSchema where
  version : String
  project_name : String
  description : String
  global_communication_protocols : GlobalProtocols
  directory_structure : List (String × DirectoryConfig)
  event_flows : List (String × List EventFlow)
  communication_matrix : CommunicationMatrix
  platform_specific : PlatformSpecific
  error_propagation : ErrorPropagation

/-- `AgentFile` from models/schema.rs (main.rs:512-516). -/
structure AgentFile where
  path : String
  content : String
  deriving DecidableEq, Repr

/-- The error taxonomy of the design (spec §7).  The source collapses all
of these into one opaque `Error` via `?`-conversions; the constructors
record which subsystem an error originates from: providers, serde_json
(`parse`), schema semantic validation (`validation`, present in the spec
taxonomy only), the document store (`persistence`), and the repository
host (`remote`). -/
inductive Err where
  | provider (m : String)
  | parse (m : String)
  | validation (m : String)
  | persistence (m : String)
  | remote (m : String)
  deriving DecidableEq, Repr

/-- The reason string carried by an error (spec §7: "the failing reason is
captured verbatim"). -/
def Err.message : Err → String
  | .provider m => m
  | .parse m => m
  | .validation m => m
  | .persistence m => m
  | .remote m => m

/-! ## Serialization (`#[derive(Serialize)]` at the `serde_json::Value` level)

Each struct serializes to a JSON object whose keys are the field names in
declaration order; `Option` fields serialize `None` as `null`; `HashMap`
fields serialize to objects in the map's iteration order (the association
list order in this model). -/

def tjStrList (l : List String) : Json := .arr (l.map Json.str)

def tjOptStrList : Option (List String) → Json
  | none => .null
  | some l => tjStrList l

def tjStrPairs (l : List (String × String)) : Json :=
  .obj (l.map (fun p => (p.1, Json.str p.2)))

def tjOptStrPairs : Option (List (String × String)) → Json
  | none => .null
  | some l => tjStrPairs l

def tjFileConfig (f : FileConfig) : Json :=
  .obj [("criticality", .num f.criticality),
        ("type", .str f.file_type),
        ("purpose", .str f.purpose),
        ("dependencies", tjStrList f.dependencies),
        ("communicates", tjOptStrPairs f.communicates),
        ("triggers", tjOptStrList f.triggers),
        ("modifies", tjOptStrList f.modifies)]

def tjEventFlow (f : EventFlow) : Json :=
  .obj [("name", .str f.name), ("description", .str f.description)]

def tjEventFlowPairs (l : List (String × List EventFlow)) : List (String × Json) :=
  l.map (fun p => (p.1, Json.arr (p.2.map tjEventFlow)))

mutual
def tjDirectoryConfig : DirectoryConfig → Json
  | .mk c d files dirs rf st pr =>
    .obj [("criticality", .num c),
          ("description", .str d),
          ("files", .obj (files.map (fun p => (p.1, tjFileConfig p.2)))),
          ("directories", match dirs with
            | none => Json.null
            | some ds => .obj (tjDirPairs ds)),
          ("receives_from", tjOptStrList rf),
          ("sends_to", tjOptStrList st),
          ("protocols", tjOptStrList pr)]

def tjDirPairs : List (String × DirectoryConfig) → List (String × Json)
  | [] => []
  | (k, v) :: rest => (k, tjDirectoryConfig v) :: tjDirPairs rest
end

def tjSchema (s : CommunicationSchema) : Json :=
  .obj [("version", .str s.version),
        ("project_name", .str s.project_name),
        ("description", .str s.description),
        ("global_communication_protocols", .str s.global_communication_protocols.description),
        ("directory_structure", .obj (tjDirPairs s.directory_structure)),
        ("event_flows", .obj (tjEventFlowPairs s.event_flows)),
        ("communication_matrix", .str s.communication_matrix.matrix),
        ("platform_specific", .str s.platform_specific.notes),
        ("error_propagation", .str s.error_propagation.rules)]

/-! ## Deserialization (`#[derive(Deserialize)]` at the `serde_json::Value` level)

serde's derived deserializer visits the object's entries in order, filling
one slot per known field (erroring on a duplicate), ignoring unknown
fields, and at the end errors if a required field is missing; a missing
`Option` field defaults to `None` and an explicit `null` reads as `None`.
The accumulator functions below model exactly that. -/

def asU8 : Json → Except String Nat
  | .num n => if 0 ≤ n ∧ n ≤ 255 then .ok n.toNat else .error "invalid value: u8 out of range"
  | _ => .error "invalid type: expected u8"

def asStr : Json → Except String String
  | .str s => .ok s
  | _ => .error "invalid type: expected string"

def strListGo : List Json → Except String (List String)
  | [] => .ok []
  | j :: rest =>
    match asStr j, strListGo rest with
    | .ok s, .ok l => .ok (s :: l)
    | .error e, _ => .error e
    | _, .error e => .error e

def asStrList : Json → Except String (List String)
  | .arr xs => strListGo xs
  | _ => .error "invalid type: expected array"

def asOptStrList : Json → Except String (Option (List String))
  | .null => .ok none
  | .arr xs => (strListGo xs).map some
  | _ => .error "invalid type: expected array or null"

def strPairsGo : List (String × Json) → Except String (List (String × String))
  | [] => .ok []
  | (k, v) :: rest =>
    match asStr v, strPairsGo rest with
    | .ok s, .ok l => .ok ((k, s) :: l)
    | .error e, _ => .error e
    | _, .error e => .error e

def asOptStrPairs : Json → Except String (Option (List (String × String)))
  | .null => .ok none
  | .obj fs => (strPairsGo fs).map some
  | _ => .error "invalid type: expected map or null"

/-- Fill a one-shot field slot; serde errors on a duplicate field. -/
def setOnce (slot : Option α) (v : α) : Except String (Option α) :=
  match slot with
  | some _ => .error "duplicate field"
  | none => .ok (some v)

/-- Fill a one-shot field slot from a fallible field parse. -/
def setOnceE (slot : Option α) (v : Except String α) : Except String (Option α) :=
  match slot with
  | some _ => .error "duplicate field"
  | none => v.map some

structure FCAcc where
  crit : Option Nat := none
  ftype : Option String := none
  purp : Option String := none
  deps : Option (List String) := none
  comms : Option (Option (List (String × String))) := none
  trigs : Option (Option (List String)) := none
  mods : Option (Option (List String)) := none

def stepFC (k : String) (v : Json) (acc : FCAcc) : Except String FCAcc :=
  if k = "criticality" then (setOnceE acc.crit (asU8 v)).map (fun x => { acc with crit := x })
  else if k = "type" then (setOnceE acc.ftype (asStr v)).map (fun x => { acc with ftype := x })
  else if k = "purpose" then (setOnceE acc.purp (asStr v)).map (fun x => { acc with purp := x })
  else if k = "dependencies" then (setOnceE acc.deps (asStrList v)).map (fun x => { acc with deps := x })
  else if k = "communicates" then (setOnceE acc.comms (asOptStrPairs v)).map (fun x => { acc with comms := x })
  else if k = "triggers" then (setOnceE acc.trigs (asOptStrList v)).map (fun x => { acc with trigs := x })
  else if k = "modifies" then (setOnceE acc.mods (asOptStrList v)).map (fun x => { acc with mods := x })
  else .ok acc

def finishFC (acc : FCAcc) : Except String FileConfig :=
  match acc.crit, acc.ftype, acc.purp, acc.deps with
  | some c, some t, some p, some d =>
    .ok ⟨c, t, p, d, acc.comms.getD none, acc.trigs.getD none, acc.mods.getD none⟩
  | _, _, _, _ => .error "missing field"

def fjFileConfigGo : List (String × Json) → FCAcc → Except String FileConfig
  | [], acc => finishFC acc
  | (k, v) :: rest, acc =>
    match stepFC k v acc with
    | .ok acc2 => fjFileConfigGo rest acc2
    | .error e => .error e

def fjFileConfig : Json → Except String FileConfig
  | .obj fs => fjFileConfigGo fs {}
  | _ => .error "invalid type: expected FileConfig map"

def fjFilePairs : List (String × Json) → Except String (List (String × FileConfig))
  | [] => .ok []
  | (k, v) :: rest =>
    match fjFileConfig v, fjFilePairs rest with
    | .ok f, .ok fs => .ok ((k, f) :: fs)
    | .error e, _ => .error e
    | _, .error e => .error e

structure EFAcc where
  name : Option String := none
  descr : Option String := none

def stepEF (k : String) (v : Json) (acc : EFAcc) : Except String EFAcc :=
  if k = "name" then (setOnceE acc.name (asStr v)).map (fun x => { acc with name := x })
  else if k = "description" then (setOnceE acc.descr (asStr v)).map (fun x => { acc with descr := x })
  else .ok acc

def finishEF (acc : EFAcc) : Except String EventFlow :=
  match acc.name, acc.descr with
  | some n, some d => .ok ⟨n, d⟩
  | _, _ => .error "missing field"

def fjEventFlowGo : List (String × Json) → EFAcc → Except String EventFlow
  | [], acc => finishEF acc
  | (k, v) :: rest, acc =>
    match stepEF k v acc with
    | .ok acc2 => fjEventFlowGo rest acc2
    | .error e => .error e

def fjEventFlow : Json → Except String EventFlow
  | .obj fs => fjEventFlowGo fs {}
  | _ => .error "invalid type: expected EventFlow map"

def efListGo : List Json → Except String (List EventFlow)
  | [] => .ok []
  | j :: rest =>
    match fjEventFlow j, efListGo rest with
    | .ok f, .ok fs => .ok (f :: fs)
    | .error e, _ => .error e
    | _, .error e => .error e

def fjEventFlowPairs : List (String × Json) → Except String (List (String × List EventFlow))
  | [] => .ok []
  | (k, v) :: rest =>
    match v with
    | .arr xs =>
      match efListGo xs, fjEventFlowPairs rest with
      | .ok fs, .ok l => .ok ((k, fs) :: l)
      | .error e, _ => .error e
      | _, .error e => .error e
    | _ => .error "invalid type: expected array of event flows"

structure DCAcc where
  crit : Option Nat := none
  descr : Option String := none
  files : Option (List (String × FileConfig)) := none
  dirs : Option (Option (List (String × DirectoryConfig))) := none
  rf : Option (Option (List String)) := none
  st : Option (Option (List String)) := none
  pr : Option (Option (List String)) := none

def finishDC (acc : DCAcc) : Except String DirectoryConfig :=
  match acc.crit, acc.descr, acc.files with
  | some c, some d, some fl =>
    .ok (.mk c d fl (acc.dirs.getD none) (acc.rf.getD none) (acc.st.getD none) (acc.pr.getD none))
  | _, _, _ => .error "missing field"

mutual
def fjDirectoryConfig : Json → Except String DirectoryConfig
  | .obj fs => fjDirectoryConfigGo fs {}
  | _ => .error "invalid type: expected DirectoryConfig map"

def fjDirectoryConfigGo : List (String × Json) → DCAcc → Except String DirectoryConfig
  | [], acc => finishDC acc
  | (k, v) :: rest, acc =>
    match stepDC k v acc with
    | .ok acc2 => fjDirectoryConfigGo rest acc2
    | .error e => .error e

def stepDC (k : String) (v : Json) (acc : DCAcc) : Except String DCAcc :=
  if k = "criticality" then (setOnceE acc.crit (asU8 v)).map (fun x => { acc with crit := x })
  else if k = "description" then (setOnceE acc.descr (asStr v)).map (fun x => { acc with descr := x })
  else if k = "files" then
    match v with
    | .obj fsj => (setOnceE acc.files (fjFilePairs fsj)).map (fun x => { acc with files := x })
    | _ => .error "invalid type: expected map"
  else if k = "directories" then
    match v with
    | Json.null => (setOnce acc.dirs none).map (fun x => { acc with dirs := x })
    | .obj dsj => (setOnceE acc.dirs ((fjDirPairs dsj).map some)).map (fun x => { acc with dirs := x })
    | _ => .error "invalid type: expected map or null"
  else if k = "receives_from" then (setOnceE acc.rf (asOptStrList v)).map (fun x => { acc with rf := x })
  else if k = "sends_to" then (setOnceE acc.st (asOptStrList v)).map (fun x => { acc with st := x })
  else if k = "protocols" then (setOnceE acc.pr (asOptStrList v)).map (fun x => { acc with pr := x })
  else .ok acc

def fjDirPairs : List (String × Json) → Except String (List (String × DirectoryConfig))
  | [] => .ok []
  | (k, v) :: rest =>
    match fjDirectoryConfig v, fjDirPairs rest with
    | .ok d, .ok ds => .ok ((k, d) :: ds)
    | .error e, _ => .error e
    | _, .error e => .error e
end

structure SchemaAcc where
  ver : Option String := none
  pname : Option String := none
  descr : Option String := none
  gcp : Option GlobalProtocols := none
  dirs : Option (List (String × DirectoryConfig)) := none
  flows : Option (List (String × List EventFlow)) := none
  matrix : Option CommunicationMatrix := none
  platform : Option PlatformSpecific := none
  errprop : Option ErrorPropagation := none

def stepSchema (k : String) (v : Json) (acc : SchemaAcc) : Except String SchemaAcc :=
  if k = "version" then (setOnceE acc.ver (asStr v)).map (fun x => { acc with ver := x })
  else if k = "project_name" then (setOnceE acc.pname (asStr v)).map (fun x => { acc with pname := x })
  else if k = "description" then (setOnceE acc.descr (asStr v)).map (fun x => { acc with descr := x })
  else if k = "global_communication_protocols" then
    (setOnceE acc.gcp ((asStr v).map GlobalProtocols.mk)).map (fun x => { acc with gcp := x })
  else if k = "directory_structure" then
    match v with
    | .obj dsj => (setOnceE acc.dirs (fjDirPairs dsj)).map (fun x => { acc with dirs := x })
    | _ => .error "invalid type: expected map"
  else if k = "event_flows" then
    match v with
    | .obj efj => (setOnceE acc.flows (fjEventFlowPairs efj)).map (fun x => { acc with flows := x })
    | _ => .error "invalid type: expected map"
  else if k = "communication_matrix" then
    (setOnceE acc.matrix ((asStr v).map CommunicationMatrix.mk)).map (fun x => { acc with matrix := x })
  else if k = "platform_specific" then
    (setOnceE acc.platform ((asStr v).map PlatformSpecific.mk)).map (fun x => { acc with platform := x })
  else if k = "error_propagation" then
    (setOnceE acc.errprop ((asStr v).map ErrorPropagation.mk)).map (fun x => { acc with errprop := x })
  else .ok acc

def finishSchema (acc : SchemaAcc) : Except String CommunicationSchema :=
  match acc.ver, acc.pname, acc.descr, acc.gcp, acc.dirs, acc.flows, acc.matrix, acc.platform, acc.errprop with
  | some v, some pn, some d, some g, some ds, some fl, some m, some pl, some ep =>
    .ok ⟨v, pn, d, g, ds, fl, m, pl, ep⟩
  | _, _, _, _, _, _, _, _, _ => .error "missing field"

def fjSchemaGo : List (String × Json) → SchemaAcc → Except String CommunicationSchema
  | [], acc => finishSchema acc
  | (k, v) :: rest, acc =>
    match stepSchema k v acc with
    | .ok acc2 => fjSchemaGo rest acc2
    | .error e => .error e

/-- `serde_json::from_str::<CommunicationSchema>` at the value level. -/
def fjSchema : Json → Except String CommunicationSchema
  | .obj fs => fjSchemaGo fs {}
  | _ => .error "invalid type: expected CommunicationSchema map"

/- Criticality bound check over a directory tree (all directory and file
criticalities ≤ bound).  With bound = 255 this is exactly the
representability constraint the Rust u8 type imposes; with bound = 10
it is the spec's validity range [0,10] (spec sections 3 and 4.2). -/
mutual
def dcCritLe (bound : Nat) : DirectoryConfig → Bool
  | .mk c _ files dirs _ _ _ =>
    decide (c ≤ bound) && files.all (fun p => decide (p.2.criticality ≤ bound)) &&
      (match dirs with
       | none => true
       | some ds => dcListCritLe bound ds)

def dcListCritLe (bound : Nat) : List (String × DirectoryConfig) → Bool
  | [] => true
  | (_, v) :: rest => dcCritLe bound v && dcListCritLe bound rest
end

def schemaCritLe (bound : Nat) (s : CommunicationSchema) : Bool :=
  dcListCritLe bound s.directory_structure

/-! ## `generate_directory_docs` (main.rs:383-469) -/

/-- Escaping shared by Rust's `{:?}` `Debug` formatting of `String` and by
JSON string literals: quote, backslash, newline, carriage return and tab.
(Other control characters, which this development never feeds in, are not
modelled.) -/
def escapeString (s : String) : String :=
  String.join (s.data.map (fun c =>
    if c = '"' then "\\\""
    else if c = '\\' then "\\\\"
    else if c = '\n' then "\\n"
    else if c = '\r' then "\\r"
    else if c = '\t' then "\\t"
    else String.singleton c))

/-- Rust `{:?}` on a `Vec<String>`, e.g. `["a", "b"]`. -/
def rustDebugStrList (l : List String) : String :=
  "[" ++ String.intercalate ", " (l.map (fun s => "\"" ++ escapeString s ++ "\"")) ++ "]"

/-- A JSON string literal. -/
def jsonStrLit (s : String) : String := "\"" ++ escapeString s ++ "\""

/-- Insert into a list already sorted by descending criticality, placing
the new element before the first strictly smaller criticality. -/
def insertByCritDesc (a : String × FileConfig) :
    List (String × FileConfig) → List (String × FileConfig)
  | [] => [a]
  | b :: bs =>
    if b.2.criticality < a.2.criticality then a :: b :: bs
    else b :: insertByCritDesc a bs

/-- `files.sort_by(|a, b| b.1.criticality.cmp(&a.1.criticality))`
(main.rs:397-398).  Rust's `sort_by` is a stable sort, and the result of a
stable sort is uniquely determined by the comparator and the input order,
so this insertion sort computes exactly what the Rust call computes:
descending by criticality, with ties left in input (map-iteration) order.
(Here a later input element is inserted behind all already-placed elements
of equal criticality.) -/
def sortByCritDesc (files : List (String × FileConfig)) : List (String × FileConfig) :=
  files.foldl (fun acc a => insertByCritDesc a acc) []

/-- One entry of the critical-files section (main.rs:402-420). -/
def criticalEntry (nf : String × FileConfig) : String :=
  "### " ++ nf.1 ++ "\n- **Criticality:** " ++ toString nf.2.criticality ++
    "/10\n- **Type:** " ++ nf.2.file_type ++ "\n- **Purpose:** " ++ nf.2.purpose ++
    "\n- **Communicates with:**\n" ++
  (match nf.2.communicates with
   | none => ""
   | some comms => String.join (comms.map (fun td => "  - " ++ td.1 ++ ": " ++ td.2 ++ "\n"))) ++
  (if nf.2.dependencies.isEmpty then ""
   else "- **Dependencies:** " ++ rustDebugStrList nf.2.dependencies ++ "\n") ++
  "\n"

/-- One entry of the important- or supporting-files sections
(main.rs:425-428, 435-438). -/
def summaryEntry (nf : String × FileConfig) : String :=
  "- **" ++ nf.1 ++ "** (Criticality: " ++ toString nf.2.criticality ++ "/10): " ++
    nf.2.purpose ++ "\n"

/-- The critical band: files of the sorted list with criticality ≥ 9
(main.rs:402). -/
def criticalBand (sorted : List (String × FileConfig)) : List (String × FileConfig) :=
  sorted.filter (fun nf => 9 ≤ nf.2.criticality)

/-- The important band: criticality in [7,9) (main.rs:424). -/
def importantBand (sorted : List (String × FileConfig)) : List (String × FileConfig) :=
  sorted.filter (fun nf => 7 ≤ nf.2.criticality && nf.2.criticality < 9)

/-- The supporting band: criticality < 7 (main.rs:434). -/
def supportingBand (sorted : List (String × FileConfig)) : List (String × FileConfig) :=
  sorted.filter (fun nf => nf.2.criticality < 7)

def criticalSection (sorted : List (String × FileConfig)) : String :=
  "## Critical Files (Must maintain for system stability)\n" ++
    String.join ((criticalBand sorted).map criticalEntry)

def importantSection (sorted : List (String × FileConfig)) : String :=
  "\n## Important Files (Breaking these affects functionality)\n" ++
    String.join ((importantBand sorted).map summaryEntry)

/-- Emitted only when some file has criticality < 7 (main.rs:432). -/
def supportingSection (sorted : List (String × FileConfig)) : String :=
  if sorted.any (fun nf => nf.2.criticality < 7) then
    "\n## Supporting Files (Can be modified with care)\n" ++
      String.join ((supportingBand sorted).map summaryEntry)
  else ""

def commPatternsSection (dir_config : DirectoryConfig) : String :=
  "\n## Communication Patterns\n" ++
  (match dir_config.receives_from with
   | none => ""
   | some receives => "- **Receives from:** " ++ rustDebugStrList receives ++ "\n") ++
  (match dir_config.sends_to with
   | none => ""
   | some sends => "- **Sends to:** " ++ rustDebugStrList sends ++ "\n") ++
  (match dir_config.protocols with
   | none => ""
   | some protocols => "- **Protocols:** " ++ rustDebugStrList protocols ++ "\n")

/-- Modelled from the spec: `build_relationships` is called at main.rs:456
but not defined under src/.  Per §4.1 step 6 it produces "a JSON object
capturing, for every file in the directory, its dependency and
communicates-with relations ... built purely from `config.files`",
rendered through `serde_json::to_string_pretty`.  The rendering below is
one fixed, deterministic pretty format of that object, in map-iteration
order. -/
def relationshipsPretty (files : List (String × FileConfig)) : String :=
  if files.isEmpty then "\x7b\x7d"
  else
    "\x7b\n" ++
    String.intercalate ",\n" (files.map (fun nf =>
      "  " ++ jsonStrLit nf.1 ++ ": \x7b \"dependencies\": [" ++
        String.intercalate ", " (nf.2.dependencies.map jsonStrLit) ++
      "], \"communicates_with\": [" ++
        String.intercalate ", " ((match nf.2.communicates with
          | none => ([] : List String)
          | some comms => comms.map Prod.fst).map jsonStrLit) ++
      "] \x7d")) ++
    "\n\x7d"

def relationshipsSection (files : List (String × FileConfig)) : String :=
  "\n## File Relationships\n```json\n" ++ relationshipsPretty files ++ "\n```\n"

/-- First-match association-list lookup (`HashMap::get`). -/
def assocGet (l : List (String × α)) (k : String) : Option α :=
  match l with
  | [] => none
  | (k2, v) :: rest => if k2 = k then some v else assocGet rest k

def eventFlowsSection (schema : CommunicationSchema) (dir_path : String) : String :=
  match assocGet schema.event_flows dir_path with
  | none => ""
  | some flows =>
    "\n## Event Flows\n" ++
      String.join (flows.map (fun flow => "- " ++ flow.name ++ ": " ++ flow.description ++ "\n"))

/-- `generate_directory_docs` (main.rs:383-469).  The Rust function
returns `Result<String, Error>`, but its only fallible call is
`serde_json::to_string_pretty` on a value made of strings and maps, which
cannot fail, so the embedding returns `String`.  The sections are
concatenated in exactly the source's `push_str` order, over the list
sorted once at the top (main.rs:397-398). -/
def generate_directory_docs (dir_path : String) (dir_config : DirectoryConfig)
    (schema : CommunicationSchema) : String :=
  let sorted := sortByCritDesc dir_config.files
  "# " ++ dir_path ++ " - " ++ dir_config.description ++ "\nCriticality: " ++
    toString dir_config.criticality ++ "/10\n\n" ++
  criticalSection sorted ++
  importantSection sorted ++
  supportingSection sorted ++
  commPatternsSection dir_config ++
  relationshipsSection dir_config.files ++
  eventFlowsSection schema dir_path

/-! ## `generate_agent_files` (main.rs:362-381) -/

/-- Rust `str::trim_end_matches('/')`: remove every trailing `'/'`. -/
def trimEndSlashes (s : String) : String :=
  String.mk (s.data.reverse.dropWhile (fun c => c = '/')).reverse

/-- The loop body of `generate_agent_files` (main.rs:366-378): for each
directory entry, render once and push the README and AGENT artifacts with
identical content. -/
def agentFilesLoop (schema : CommunicationSchema) :
    List (String × DirectoryConfig) → List AgentFile
  | [] => []
  | (dir_path, dir_config) :: rest =>
    let content := generate_directory_docs dir_path dir_config schema
    ⟨trimEndSlashes dir_path ++ "/README.md", content⟩ ::
    ⟨trimEndSlashes dir_path ++ "/AGENT.md", content⟩ ::
    agentFilesLoop schema rest

def agentFilesOf (schema : CommunicationSchema) : List AgentFile :=
  agentFilesLoop schema schema.directory_structure

/-- `generate_agent_files` (main.rs:362-381): deserialize the schema text
(`serde_json::from_str`, modelled at the value level) and emit two agent
files per directory entry.  A serde failure surfaces through `?` as the
ParseError of the taxonomy; no other failure exists in the body. -/
def generate_agent_files (j : Json) : Except Err (List AgentFile) :=
  match fjSchema j with
  | .error m => .error (.parse m)
  | .ok schema => .ok (agentFilesOf schema)

/-- Discriminator: is this result a `ValidationError`? -/
def isValidationError : Except Err α → Bool
  | .error (.validation _) => true
  | _ => false

/-- Discriminator: is this result a `ParseError`? -/
def isParseError : Except Err α → Bool
  | .error (.parse _) => true
  | _ => false

/-- `serde_json::to_string(&agents)` (main.rs:265): compact JSON of the
artifact list. -/
def agentFileJsonString (f : AgentFile) : String :=
  "\x7b\"path\":" ++ jsonStrLit f.path ++ ",\"content\":" ++ jsonStrLit f.content ++ "\x7d"

def agentsToString (fs : List AgentFile) : String :=
  "[" ++ String.intercalate "," (fs.map agentFileJsonString) ++ "]"

/-! ## `GitHubService` (main.rs:518-596) -/

/-- Observable repository-host effects of the scaffolder: one
`create_file` commit attempt (octocrab call), and one
`tokio::time::sleep` (milliseconds). -/
inductive GEvent where
  | commit (path : String)
  | sleep (ms : Nat)
  deriving DecidableEq, Repr

/-- The type of the commit oracle standing for the octocrab call inside
`create_file` (main.rs:555-572): repo, path, content, message.  An octocrab
failure is a repository-host failure, i.e. a `RemoteServiceError`. -/
def CommitFn : Type := String → String → String → String → Except Err Unit

/-- `files.chunks(10)` (main.rs:580): split into consecutive chunks of
`n` (the last one possibly shorter); `n` is never 0 here. -/
def chunksOf (n : Nat) : List α → List (List α)
  | [] => []
  | x :: xs => (x :: xs.take (n - 1)) :: chunksOf n (xs.drop (n - 1))
termination_by l => l.length
decreasing_by
  simp only [List.length_cons, List.length_drop]
  omega

/-- The inner loop of `create_directory_structure` (main.rs:581-591): one
chunk, committing each file in order via `create_file` with message
`"Add {path}"`, sleeping 100ms after each successful commit, aborting on
the first failure via `?`. -/
def commitSeq (commit : CommitFn) (repo : String) :
    List AgentFile → Except Err Unit × List GEvent
  | [] => (.ok (), [])
  | f :: rest =>
    match commit repo f.path f.content ("Add " ++ f.path) with
    | .error e => (.error e, [.commit f.path])
    | .ok _ =>
      let r := commitSeq commit repo rest
      (r.1, .commit f.path :: .sleep 100 :: r.2)

/-- The outer loop of `create_directory_structure` over the chunks. -/
def commitChunks (commit : CommitFn) (repo : String) :
    List (List AgentFile) → Except Err Unit × List GEvent
  | [] => (.ok (), [])
  | chunk :: rest =>
    match commitSeq commit repo chunk with
    | (.error e, tr) => (.error e, tr)
    | (.ok _, tr) =>
      let r := commitChunks commit repo rest
      (r.1, tr ++ r.2)

/-- `create_directory_structure` (main.rs:574-595). -/
def create_directory_structure (commit : CommitFn) (repo : String)
    (files : List AgentFile) : Except Err Unit × List GEvent :=
  commitChunks commit repo (chunksOf 10 files)

/-! ## Orchestrator pipeline (main.rs:159-381) -/

/-- `GenerationStep` (main.rs:176-185). -/
inductive Step where
  | devPlan
  | architecture
  | blueprint
  | readme
  | directoryTree
  | communicationSchema
  | agentFiles
  | gitHubScaffold
  deriving DecidableEq, Repr

/-- `JobStatus` (main.rs:188-193). -/
inductive JobStatus where
  | pending
  | processing
  | completed
  | failed (reason : String)
  deriving DecidableEq, Repr

/-- Observable pipeline effects, in chronological order: a stage's
provider/host invocation, a `save_document` persistence call, an
`update_project_status` call. -/
inductive Event where
  | stageCall (s : Step)
  | save (kind content : String)
  | statusUpdate (s : JobStatus)
  deriving DecidableEq, Repr

/-- The external document/project store for one project (spec §6): the
persisted documents keyed by kind, and the project status.  The source's
string statuses are mapped onto `JobStatus` ("completed" ↦ `.completed`). -/
structure DB where
  docs : List (String × String)
  status : JobStatus
  deriving DecidableEq, Repr

/-- Idempotent upsert keyed by document kind (spec §6:
`save_document(project_id, kind, content)` is an "idempotent upsert keyed
by project+kind"). -/
def upsert (docs : List (String × String)) (kind content : String) :
    List (String × String) :=
  if docs.any (fun p => p.1 = kind) then
    docs.map (fun p => if p.1 = kind then (kind, content) else p)
  else docs ++ [(kind, content)]

def save_document (db : DB) (kind content : String) : DB :=
  { db with docs := upsert db.docs kind content }

/-- The external collaborators consumed by the `Orchestrator`
(main.rs:195-201 and spec §6), as result oracles:
* `openai_chat` / `claude_generate`: the two provider capabilities;
* `gen_tree` — Modelled from the spec: `generate_tree` is called at
  main.rs:251 but not defined under src/; per §2 it is one statically
  assigned provider completion over the blueprint text;
* `parse_json`: the text layer of `serde_json::from_str` (external
  library), turning the schema stage's text into a JSON value;
* `project_name`: `get_project_name` (store read, main.rs:268);
* `scaffold` — Modelled from the spec: `scaffold_github_repo` is called
  at main.rs:269 but not defined under src/; per §4.3 it creates the
  repository and writes the artifact list, failing with
  `RemoteServiceError` on host failures. -/
structure Env where
  openai_chat : String → String → Except Err String
  claude_generate : String → Except Err String
  gen_tree : String → Except Err String
  parse_json : String → Except Err Json
  project_name : String
  scaffold : String → String → List AgentFile → Except Err Unit

/-- `generate_dev_plan` (main.rs:277-287). -/
def generate_dev_plan (env : Env) (prompt : String) : Except Err String :=
  env.openai_chat
    "You are an expert software architect. Create comprehensive development plans."
    ("Create a detailed development plan for: " ++ prompt ++
     "\nInclude: overview, tech stack, milestones, features, database schema, API endpoints, security, deployment. Format as markdown.")

/-- `generate_architecture` (main.rs:289-301). -/
def generate_architecture (env : Env) (dev_plan : String) : Except Err String :=
  env.openai_chat "You are a senior solutions architect."
    ("Based on this development plan, create a detailed technical architecture document:\n\n"
     ++ dev_plan ++
     "\n\nInclude: system components, data flow, communication protocols, technology choices, scaling considerations. Format as markdown.")

/-- `generate_blueprint` (main.rs:303-316). -/
def generate_blueprint (env : Env) (dev_plan architecture : String) : Except Err String :=
  env.openai_chat "You are an expert at creating structured project blueprints."
    ("Create a comprehensive blueprint.json based on:\nDevelopment Plan:\n" ++ dev_plan ++
     "\n\nArchitecture:\n" ++ architecture ++
     "\n\nGenerate a detailed JSON schema with all project specifications.")

/-- `generate_readme` (main.rs:318-328). -/
def generate_readme (env : Env) (dev_plan arch blueprint : String) : Except Err String :=
  env.claude_generate
    ("Create a comprehensive README.md with visual diagrams (mermaid) based on:\nDev Plan:\n"
     ++ dev_plan ++ "\n\nArchitecture:\n" ++ arch ++ "\n\nBlueprint:\n" ++ blueprint ++
     "\n\nInclude: executive summary, features, architecture diagrams, setup instructions, API documentation, deployment guide.")

/-- `generate_tree` (called at main.rs:251; body not under src/). -/
def generate_tree (env : Env) (blueprint : String) : Except Err String :=
  env.gen_tree blueprint

/-- `generate_communication_schema` (main.rs:330-360). -/
def generate_communication_schema (env : Env) (dev_plan arch blueprint tree : String) :
    Except Err String :=
  env.claude_generate
    ("Generate a comprehensive communication schema JSON that maps all component interactions.\n\nDevelopment Plan:\n"
     ++ dev_plan ++ "\n\nArchitecture:\n" ++ arch ++ "\n\nBlueprint:\n" ++ blueprint ++
     "\n\nDirectory Tree:\n" ++ tree ++
     "\n\nCreate a schema with:\n1. Global communication protocols\n2. Complete directory structure with criticality scores (1-10)\n3. Event flows\n4. Communication matrix\n5. Platform-specific details\n6. Error handling patterns\n\nEach directory and file should have:\n- Criticality score\n- Communication patterns\n- Dependencies\n- Triggers\n- Protocol details")

/-- `generate_agent_files` on the schema stage's text: the text layer of
`serde_json::from_str` followed by the value-level deserialization and
rendering loop. -/
def generate_agent_files_str (env : Env) (schema_text : String) :
    Except Err (List AgentFile) :=
  match env.parse_json schema_text with
  | .error e => .error e
  | .ok j => generate_agent_files j

/-- One pipeline stage: record the stage invocation, then either continue
with the stage's output or abort (the `?` operator). -/
def pstep (s : Step) (r : Except Err α) (db : DB) (tr : List Event)
    (k : α → DB → List Event → Except Err Unit × DB × List Event) :
    Except Err Unit × DB × List Event :=
  match r with
  | .error e => (.error e, db, tr ++ [.stageCall s])
  | .ok out => k out db (tr ++ [.stageCall s])

/-- `process_generation` (main.rs:233-275), transcribed statement by
statement: eight stages, each followed (stages 1-7) by a `save_document`
of its output, with `?`-propagation aborting the remainder; on full
success the project status is set to "completed" (main.rs:272). -/
def process_generation (env : Env) (user_prompt : String) (db : DB) :
    Except Err Unit × DB × List Event :=
  pstep .devPlan (generate_dev_plan env user_prompt) db [] (fun dev_plan db tr =>
  let db := save_document db "dev_plan" dev_plan
  let tr := tr ++ [Event.save "dev_plan" dev_plan]
  pstep .architecture (generate_architecture env dev_plan) db tr (fun architecture db tr =>
  let db := save_document db "architecture" architecture
  let tr := tr ++ [Event.save "architecture" architecture]
  pstep .blueprint (generate_blueprint env dev_plan architecture) db tr (fun blueprint db tr =>
  let db := save_document db "blueprint" blueprint
  let tr := tr ++ [Event.save "blueprint" blueprint]
  pstep .readme (generate_readme env dev_plan architecture blueprint) db tr (fun readme db tr =>
  let db := save_document db "readme" readme
  let tr := tr ++ [Event.save "readme" readme]
  pstep .directoryTree (generate_tree env blueprint) db tr (fun tree db tr =>
  let db := save_document db "tree" tree
  let tr := tr ++ [Event.save "tree" tree]
  pstep .communicationSchema
      (generate_communication_schema env dev_plan architecture blueprint tree) db tr
      (fun schema db tr =>
  let db := save_document db "schema" schema
  let tr := tr ++ [Event.save "schema" schema]
  pstep .agentFiles (generate_agent_files_str env schema) db tr (fun agents db tr =>
  let agents_str := agentsToString agents
  let db := save_document db "agents" agents_str
  let tr := tr ++ [Event.save "agents" agents_str]
  pstep .gitHubScaffold (env.scaffold env.project_name schema agents) db tr (fun _ db tr =>
  (.ok (), { db with status := .completed }, tr ++ [Event.statusUpdate .completed])))))))))

/-- Modelled from the spec: the caller that records the failure status is
not under src/ (the `api::generation` handler / job processor is declared
at main.rs:120 but its file is absent); §4.1 and §7 state that on any
stage failure "the Job/project moves to Failed(reason)" with "the failing
reason ... captured verbatim".  On success `process_generation` itself has
already set the status. -/
def run_generation (env : Env) (user_prompt : String) (db : DB) :
    Except Err Unit × DB × List Event :=
  match process_generation env user_prompt db with
  | (.error e, db2, tr) =>
    (.error e, { db2 with status := .failed e.message },
     tr ++ [Event.statusUpdate (.failed e.message)])
  | ok => ok

/-- The stage invocations of a trace, in order. -/
def stepsOf (tr : List Event) : List Step :=
  tr.filterMap (fun e => match e with
    | .stageCall s => some s
    | _ => none)

/-- The save operations of a trace, in order. -/
def savesOf (tr : List Event) : List (String × String) :=
  tr.filterMap (fun e => match e with
    | .save k c => some (k, c)
    | _ => none)

/-- Apply a list of saves as upserts. -/
def applySaves (docs : List (String × String)) (saves : List (String × String)) :
    List (String × String) :=
  saves.foldl (fun d p => upsert d p.1 p.2) docs

/-- The fixed stage order of the pipeline (spec §3 GenerationStep). -/
def canonicalSteps : List Step :=
  [.devPlan, .architecture, .blueprint, .readme, .directoryTree,
   .communicationSchema, .agentFiles, .gitHubScaffold]

/-! ## `ProjectService` (src/backend/src/services/project.rs) -/

/-- `ProjectStatus` (src/backend/src/models.rs:42-47). -/
inductive ProjectStatus where
  | pending
  | generating
  | complete
  | failed
  deriving DecidableEq, Repr

/-- A row of the `projects` table as fetched by sqlx (project.rs:49-70):
uuids and timestamps are opaque scalars here. -/
structure ProjectRow where
  id : String
  user_id : String
  name : String
  description : Option String
  status : String
  progress : Int
  repository_url : Option String
  technologies : List String
  created_at : Int
  updated_at : Int
  deriving DecidableEq, Repr

/-- The `Project` model (models.rs), with the decoded status. -/
structure Project where
  id : String
  user_id : String
  name : String
  description : Option String
  status : ProjectStatus
  progress : Int
  repository_url : Option String
  technologies : List String
  created_at : Int
  updated_at : Int
  deriving DecidableEq, Repr

/-- The row-to-model mapping shared verbatim by `list_projects`
(project.rs:74-90) and `get_project` (project.rs:108-124), including the
status match whose wildcard arm decodes every unknown string as
`Pending`. -/
def rowToProject (row : ProjectRow) : Project :=
  { id := row.id
    user_id := row.user_id
    name := row.name
    description := row.description
    status :=
      match row.status with
      | "generating" => ProjectStatus.generating
      | "complete" => ProjectStatus.complete
      | "failed" => ProjectStatus.failed
      | _ => ProjectStatus.pending
    progress := row.progress
    repository_url := row.repository_url
    technologies := row.technologies
    created_at := row.created_at
    updated_at := row.updated_at }

/-- `list_projects` (project.rs:47-94) after the fetch: map every row. -/
def list_projects (rows : List ProjectRow) : List Project :=
  rows.map rowToProject

/-- `get_project` (project.rs:96-125) after the fetch: map the optional
row. -/
def get_project (row : Option ProjectRow) : Option Project :=
  row.map rowToProject

/-! ## Concrete inputs used by witnesses and counterexamples -/

def exampleFC : FileConfig :=
  ⟨9, "service", "entry point", ["lib"], some [("api", "rest calls")], none, none⟩

def exampleDC : DirectoryConfig :=
  .mk 9 "core sources" [("main", exampleFC)] none (some ["api"]) none none

def exampleSchema : CommunicationSchema :=
  ⟨"1.0", "todo", "a todo app", ⟨"http"⟩, [("src", exampleDC)],
   [("src", [⟨"boot", "startup flow"⟩])], ⟨"matrix"⟩, ⟨"linux"⟩, ⟨"bubble up"⟩⟩

/-- A schema whose `directory_structure` is empty but which is otherwise
fully well-formed. -/
def exampleEmptySchema : CommunicationSchema :=
  ⟨"1.0", "empty", "no dirs", ⟨"http"⟩, [], [], ⟨"matrix"⟩, ⟨"linux"⟩, ⟨"bubble up"⟩⟩

/-- A schema containing a criticality of 11, outside the spec's [0,10]. -/
def exampleC11Schema : CommunicationSchema :=
  ⟨"1.0", "oops", "bad crit", ⟨"http"⟩,
   [("src", .mk 11 "over" [("main", ⟨11, "svc", "p", [], none, none, none⟩)] none none none none)],
   [], ⟨"matrix"⟩, ⟨"linux"⟩, ⟨"bubble up"⟩⟩

/-- One `FileConfig` of criticality 5, used under two different keys. -/
def tieFC : FileConfig := ⟨5, "module", "helper", [], none, none, none⟩

/-- Two iteration orders of the same two-entry `files` map (same key-value
pairs, presented in the two possible `HashMap` iteration orders). -/
def tieFilesAB : List (String × FileConfig) := [("a.md", tieFC), ("b.md", tieFC)]

def tieFilesBA : List (String × FileConfig) := [("b.md", tieFC), ("a.md", tieFC)]

def tieDirAB : DirectoryConfig := .mk 5 "utils" tieFilesAB none none none none

def tieDirBA : DirectoryConfig := .mk 5 "utils" tieFilesBA none none none none

def tieSchema : CommunicationSchema :=
  ⟨"1.0", "tie", "tie demo", ⟨"http"⟩, [("src", tieDirAB)], [],
   ⟨"matrix"⟩, ⟨"linux"⟩, ⟨"bubble up"⟩⟩

/-- Files exercising all three criticality bands. -/
def bandFiles : List (String × FileConfig) :=
  [("hi", ⟨9, "svc", "p9", [], none, none, none⟩),
   ("mid", ⟨7, "svc", "p7", [], none, none, none⟩),
   ("low", ⟨5, "svc", "p5", [], none, none, none⟩)]

/-- A provider/store environment in which every stage succeeds and the
schema stage's text lexes to `exampleSchema`'s JSON. -/
def env0 : Env :=
  { openai_chat := fun _ _ => .ok "OA"
    claude_generate := fun _ => .ok "CL"
    gen_tree := fun _ => .ok "TREE"
    parse_json := fun _ => .ok (tjSchema exampleSchema)
    project_name := "todo"
    scaffold := fun _ _ _ => .ok () }

/-- Like `env0` but the Architecture stage's provider call fails. -/
def envArchFail : Env :=
  { env0 with
    openai_chat := fun system user =>
      if system = "You are a senior solutions architect." then
        .error (.provider "architecture provider down")
      else env0.openai_chat system user }

def dbInit : DB := ⟨[], .pending⟩

/-- Twenty artifact files named f1 .. f20. -/
def scaffoldFiles20 : List AgentFile :=
  (List.range 20).map (fun i => ⟨"f" ++ toString (i + 1), "c" ++ toString (i + 1)⟩)

/-- A commit oracle that fails (as the repository host) exactly on file
f15. -/
def commitFail15 : CommitFn :=
  fun _ path _ _ => if path = "f15" then .error (.remote "rate limited") else .ok ()

/-- The first 14 artifact files (committed before the failure). -/
def scaffoldPre14 : List AgentFile :=
  (List.range 14).map (fun i => ⟨"f" ++ toString (i + 1), "c" ++ toString (i + 1)⟩)

/-- The 15th artifact file, on which `commitFail15` fails. -/
def scaffoldFile15 : AgentFile := ⟨"f15", "c15"⟩

/-- The artifact files after the failing one (never attempted). -/
def scaffoldPost5 : List AgentFile :=
  (List.range 5).map (fun i => ⟨"f" ++ toString (i + 16), "c" ++ toString (i + 16)⟩)

deriving instance DecidableEq for Except

/-- The artifact list the successful stub run produces. -/
def afEx : List AgentFile := agentFilesOf exampleSchema

def agentsStrEx : String := agentsToString afEx

/-- The event trace of the successful stub run under `env0`. -/
def trEx : List Event :=
  [.stageCall .devPlan, .save "dev_plan" "OA",
   .stageCall .architecture, .save "architecture" "OA",
   .stageCall .blueprint, .save "blueprint" "OA",
   .stageCall .readme, .save "readme" "CL",
   .stageCall .directoryTree, .save "tree" "TREE",
   .stageCall .communicationSchema, .save "schema" "CL",
   .stageCall .agentFiles, .save "agents" agentsStrEx,
   .stageCall .gitHubScaffold, .statusUpdate .completed]

/-- The store state after the successful stub run under `env0`. -/
def db2Ex : DB :=
  ⟨[("dev_plan", "OA"), ("architecture", "OA"), ("blueprint", "OA"), ("readme", "CL"),
    ("tree", "TREE"), ("schema", "CL"), ("agents", agentsStrEx)], .completed⟩

/-! # Theorems -/

/-! ## Round-trip lemmas for the serde embedding -/

theorem asU8_num (c : Nat) (h : c ≤ 255) : asU8 (Json.num c) = .ok c := by
  simp only [asU8]
  rw [if_pos]
  · simp
  · omega

theorem asStr_str (s : String) : asStr (Json.str s) = .ok s := rfl

theorem strListGo_map (l : List String) : strListGo (l.map Json.str) = .ok l := by
  induction l with
  | nil => rfl
  | cons hd tl ih => simp only [List.map_cons, strListGo, asStr_str, ih]

theorem asStrList_tj (l : List String) : asStrList (tjStrList l) = .ok l := by
  simp only [tjStrList, asStrList, strListGo_map]

theorem asOptStrList_tj (o : Option (List String)) :
    asOptStrList (tjOptStrList o) = .ok o := by
  cases o with
  | none => rfl
  | some l => simp only [tjOptStrList, tjStrList, asOptStrList, strListGo_map, Except.map]

theorem strPairsGo_map (l : List (String × String)) :
    strPairsGo (l.map (fun p => (p.1, Json.str p.2))) = .ok l := by
  induction l with
  | nil => rfl
  | cons hd tl ih => simp only [List.map_cons, strPairsGo, asStr_str, ih]

theorem asOptStrPairs_tj (o : Option (List (String × String))) :
    asOptStrPairs (tjOptStrPairs o) = .ok o := by
  cases o with
  | none => rfl
  | some l => simp only [tjOptStrPairs, tjStrPairs, asOptStrPairs, strPairsGo_map, Except.map]

theorem rt_fileConfig (f : FileConfig) (h : f.criticality ≤ 255) :
    fjFileConfig (tjFileConfig f) = .ok f := by
  obtain ⟨c, t, p, d, cm, tg, md⟩ := f
  simp only [tjFileConfig, fjFileConfig, fjFileConfigGo, stepFC, setOnceE,
    asU8_num c h, asStr_str, asStrList_tj, asOptStrList_tj, asOptStrPairs_tj, finishFC]
  simp [Except.map]

theorem rt_filePairs (fs : List (String × FileConfig))
    (h : fs.all (fun p => decide (p.2.criticality ≤ 255)) = true) :
    fjFilePairs (fs.map (fun p => (p.1, tjFileConfig p.2))) = .ok fs := by
  induction fs with
  | nil => rfl
  | cons hd tl ih =>
    simp only [List.all_cons, Bool.and_eq_true, decide_eq_true_eq] at h
    simp only [List.map_cons, fjFilePairs, rt_fileConfig hd.2 h.1, ih h.2]

theorem rt_eventFlow (f : EventFlow) : fjEventFlow (tjEventFlow f) = .ok f := by
  obtain ⟨n, d⟩ := f
  simp only [tjEventFlow, fjEventFlow, fjEventFlowGo, stepEF, setOnceE, asStr_str, finishEF]
  simp [Except.map]

theorem efListGo_map (l : List EventFlow) : efListGo (l.map tjEventFlow) = .ok l := by
  induction l with
  | nil => rfl
  | cons hd tl ih => simp only [List.map_cons, efListGo, rt_eventFlow hd, ih]

theorem rt_eventFlowPairs (l : List (String × List EventFlow)) :
    fjEventFlowPairs (tjEventFlowPairs l) = .ok l := by
  induction l with
  | nil => rfl
  | cons hd tl ih =>
    simp only [tjEventFlowPairs, List.map_cons, fjEventFlowPairs, efListGo_map] at ih ⊢
    simp only [ih]

theorem stepDC_crit (v : Json) (acc : DCAcc) :
    stepDC "criticality" v acc =
      (setOnceE acc.crit (asU8 v)).map (fun x => { acc with crit := x }) := by
  cases v <;> rfl

theorem stepDC_descr (v : Json) (acc : DCAcc) :
    stepDC "description" v acc =
      (setOnceE acc.descr (asStr v)).map (fun x => { acc with descr := x }) := by
  cases v <;> rfl

theorem stepDC_files (fsj : List (String × Json)) (acc : DCAcc) :
    stepDC "files" (.obj fsj) acc =
      (setOnceE acc.files (fjFilePairs fsj)).map (fun x => { acc with files := x }) := rfl

theorem stepDC_dirs_null (acc : DCAcc) :
    stepDC "directories" Json.null acc =
      (setOnce acc.dirs none).map (fun x => { acc with dirs := x }) := rfl

theorem stepDC_dirs_obj (dsj : List (String × Json)) (acc : DCAcc) :
    stepDC "directories" (.obj dsj) acc =
      (setOnceE acc.dirs ((fjDirPairs dsj).map some)).map (fun x => { acc with dirs := x }) := rfl

theorem stepDC_rf (v : Json) (acc : DCAcc) :
    stepDC "receives_from" v acc =
      (setOnceE acc.rf (asOptStrList v)).map (fun x => { acc with rf := x }) := by
  cases v <;> rfl

theorem stepDC_st (v : Json) (acc : DCAcc) :
    stepDC "sends_to" v acc =
      (setOnceE acc.st (asOptStrList v)).map (fun x => { acc with st := x }) := by
  cases v <;> rfl

theorem stepDC_pr (v : Json) (acc : DCAcc) :
    stepDC "protocols" v acc =
      (setOnceE acc.pr (asOptStrList v)).map (fun x => { acc with pr := x }) := by
  cases v <;> rfl

theorem rt_dirPairs_of (ds : List (String × DirectoryConfig))
    (ih : ∀ p ∈ ds, dcCritLe 255 p.2 = true →
      fjDirectoryConfig (tjDirectoryConfig p.2) = .ok p.2)
    (h : dcListCritLe 255 ds = true) :
    fjDirPairs (tjDirPairs ds) = .ok ds := by
  induction ds with
  | nil => rfl
  | cons hd tl ihl =>
    simp only [dcListCritLe] at h
    obtain ⟨h1, h2⟩ := Bool.and_eq_true _ _ |>.mp h
    obtain ⟨k, v⟩ := hd
    have hv := ih (k, v) (List.mem_cons_self _ _) h1
    have ht := ihl (fun p hp hw => ih p (List.mem_cons_of_mem _ hp) hw) h2
    simp only [tjDirPairs, fjDirPairs, hv, ht]

theorem rt_directoryConfig_aux (n : Nat) :
    ∀ d : DirectoryConfig, sizeOf d ≤ n → dcCritLe 255 d = true →
      fjDirectoryConfig (tjDirectoryConfig d) = .ok d := by
  induction n with
  | zero =>
    intro d hle _
    exfalso
    obtain ⟨c, desc, files, dirs, rf, st, pr⟩ := d
    simp only [DirectoryConfig.mk.sizeOf_spec] at hle
    omega
  | succ n ih =>
    intro d hle h
    obtain ⟨c, desc, files, dirs, rf, st, pr⟩ := d
    cases dirs with
    | none =>
      simp only [dcCritLe, Bool.and_eq_true, decide_eq_true_eq] at h
      obtain ⟨⟨hc, hf⟩, -⟩ := h
      simp only [tjDirectoryConfig, fjDirectoryConfig, fjDirectoryConfigGo,
        stepDC_crit, stepDC_descr, stepDC_files, stepDC_dirs_null, stepDC_rf, stepDC_st,
        stepDC_pr, setOnceE, setOnce, asU8_num c hc, asStr_str, rt_filePairs files hf,
        asOptStrList_tj, finishDC]
      simp [Except.map]
    | some ds =>
      simp only [dcCritLe, Bool.and_eq_true, decide_eq_true_eq] at h
      obtain ⟨⟨hc, hf⟩, hd⟩ := h
      have hsub : ∀ p ∈ ds, sizeOf (Prod.snd p) ≤ n := by
        intro p hp
        have h1 : sizeOf p < sizeOf ds := List.sizeOf_lt_of_mem hp
        have h2 : sizeOf (DirectoryConfig.mk c desc files (some ds) rf st pr) ≤ n + 1 := hle
        obtain ⟨a, b⟩ := p
        simp only [DirectoryConfig.mk.sizeOf_spec, Option.some.sizeOf_spec,
          Prod.mk.sizeOf_spec] at h1 h2 ⊢
        omega
      have hds : fjDirPairs (tjDirPairs ds) = .ok ds :=
        rt_dirPairs_of ds (fun p hp hw => ih p.2 (hsub p hp) hw) hd
      simp only [tjDirectoryConfig, fjDirectoryConfig, fjDirectoryConfigGo,
        stepDC_crit, stepDC_descr, stepDC_files, stepDC_dirs_obj, stepDC_rf, stepDC_st,
        stepDC_pr, setOnceE, setOnce, asU8_num c hc, asStr_str, rt_filePairs files hf,
        asOptStrList_tj, hds, finishDC]
      simp [Except.map]

theorem rt_directoryConfig (d : DirectoryConfig) (h : dcCritLe 255 d = true) :
    fjDirectoryConfig (tjDirectoryConfig d) = .ok d :=
  rt_directoryConfig_aux (sizeOf d) d le_rfl h

theorem rt_dirPairs (ds : List (String × DirectoryConfig))
    (h : dcListCritLe 255 ds = true) :
    fjDirPairs (tjDirPairs ds) = .ok ds :=
  rt_dirPairs_of ds (fun p _ hw => rt_directoryConfig p.2 hw) h

theorem rt_schema (s : CommunicationSchema) (h : schemaCritLe 255 s = true) :
    fjSchema (tjSchema s) = .ok s := by
  obtain ⟨v, pn, d, ⟨g⟩, ds, fl, ⟨m⟩, ⟨pl⟩, ⟨ep⟩⟩ := s
  simp only [schemaCritLe] at h
  simp only [tjSchema, fjSchema, fjSchemaGo, stepSchema, setOnceE, asStr_str,
    rt_dirPairs ds h, rt_eventFlowPairs, finishSchema]
  simp [Except.map]

theorem dcListCritLe_mono_of (b1 b2 : Nat) (hb : b1 ≤ b2)
    (ds : List (String × DirectoryConfig))
    (ih : ∀ p ∈ ds, dcCritLe b1 p.2 = true → dcCritLe b2 p.2 = true)
    (h : dcListCritLe b1 ds = true) : dcListCritLe b2 ds = true := by
  induction ds with
  | nil => rfl
  | cons hd tl ihl =>
    simp only [dcListCritLe] at h ⊢
    obtain ⟨h1, h2⟩ := Bool.and_eq_true _ _ |>.mp h
    obtain ⟨k, v⟩ := hd
    have hv := ih (k, v) (List.mem_cons_self _ _) h1
    have ht := ihl (fun p hp hw => ih p (List.mem_cons_of_mem _ hp) hw) h2
    simp [hv, ht]

theorem dcCritLe_mono_aux (b1 b2 : Nat) (hb : b1 ≤ b2) (n : Nat) :
    ∀ d : DirectoryConfig, sizeOf d ≤ n → dcCritLe b1 d = true → dcCritLe b2 d = true := by
  induction n with
  | zero =>
    intro d hle _
    exfalso
    obtain ⟨c, desc, files, dirs, rf, st, pr⟩ := d
    simp only [DirectoryConfig.mk.sizeOf_spec] at hle
    omega
  | succ n ih =>
    intro d hle h
    obtain ⟨c, desc, files, dirs, rf, st, pr⟩ := d
    cases dirs with
    | none =>
      simp only [dcCritLe, Bool.and_eq_true, decide_eq_true_eq] at h ⊢
      refine ⟨⟨le_trans h.1.1 hb, ?_⟩, trivial⟩
      simp only [List.all_eq_true, decide_eq_true_eq] at h ⊢
      exact fun p hp => le_trans (h.1.2 p hp) hb
    | some ds =>
      simp only [dcCritLe, Bool.and_eq_true, decide_eq_true_eq] at h ⊢
      have hsub : ∀ p ∈ ds, sizeOf (Prod.snd p) ≤ n := by
        intro p hp
        have h1 : sizeOf p < sizeOf ds := List.sizeOf_lt_of_mem hp
        have h2 : sizeOf (DirectoryConfig.mk c desc files (some ds) rf st pr) ≤ n + 1 := hle
        obtain ⟨a, b⟩ := p
        simp only [DirectoryConfig.mk.sizeOf_spec, Option.some.sizeOf_spec,
          Prod.mk.sizeOf_spec] at h1 h2 ⊢
        omega
      refine ⟨⟨le_trans h.1.1 hb, ?_⟩, ?_⟩
      · simp only [List.all_eq_true, decide_eq_true_eq] at h ⊢
        exact fun p hp => le_trans (h.1.2 p hp) hb
      · exact dcListCritLe_mono_of b1 b2 hb ds (fun p hp hw => ih p.2 (hsub p hp) hw) h.2

theorem schemaCritLe_mono (b1 b2 : Nat) (hb : b1 ≤ b2) (s : CommunicationSchema)
    (h : schemaCritLe b1 s = true) : schemaCritLe b2 s = true :=
  dcListCritLe_mono_of b1 b2 hb s.directory_structure
    (fun p _ hw => dcCritLe_mono_aux b1 b2 hb (sizeOf p.2) p.2 le_rfl hw) h

/-- C7: For every valid CommunicationSchema value (spec validity: every
criticality within [0,10] and a non-empty directory structure),
serializing it to JSON and parsing the result back yields the original
schema — serialize-then-parse is the identity on valid schemas. -/
theorem schema_roundtrip_valid (s : CommunicationSchema)
    (hv : schemaCritLe 10 s = true) (hne : s.directory_structure ≠ []) :
    fjSchema (tjSchema s) = .ok s :=
  rt_schema s (schemaCritLe_mono 10 255 (by omega) s hv)

/-- C7 witness: the round trip evaluated on `exampleSchema`. -/
theorem schema_roundtrip_valid_witness :
    schemaCritLe 10 exampleSchema = true ∧
    exampleSchema.directory_structure ≠ [] ∧
    fjSchema (tjSchema exampleSchema) = .ok exampleSchema :=
  ⟨by decide, by simp [exampleSchema], schema_roundtrip_valid exampleSchema (by decide)
    (by simp [exampleSchema])⟩

/-- C2 (amended): `generate_agent_files` can only fail with a ParseError
(a serde deserialization failure: malformed input, a missing required
field, or a criticality that is not a valid u8); it performs no semantic
validation of the parsed schema: it never produces a ValidationError, and
a schema with an empty `directory_structure` is accepted and yields an
empty artifact list. -/
theorem generate_agent_files_parse_only :
    (∀ j : Json, isValidationError (generate_agent_files j) = false) ∧
    (∀ (j : Json) (e : Err), generate_agent_files j = .error e → ∃ m, e = Err.parse m) ∧
    (∀ (j : Json) (fs : List AgentFile), generate_agent_files j = .ok fs →
      ∃ s, fjSchema j = .ok s ∧ fs = agentFilesOf s) ∧
    (∀ s : CommunicationSchema, schemaCritLe 255 s = true → s.directory_structure = [] →
      generate_agent_files (tjSchema s) = .ok []) := by
  refine ⟨?_, ?_, ?_, ?_⟩
  · intro j
    cases hp : fjSchema j with
    | error m => simp [generate_agent_files, hp, isValidationError]
    | ok s => simp [generate_agent_files, hp, isValidationError]
  · intro j e h
    cases hp : fjSchema j with
    | error m =>
      simp only [generate_agent_files, hp, Except.error.injEq] at h
      exact ⟨m, h.symm⟩
    | ok s => simp [generate_agent_files, hp] at h
  · intro j fs h
    cases hp : fjSchema j with
    | error m => simp [generate_agent_files, hp] at h
    | ok s =>
      simp only [generate_agent_files, hp, Except.ok.injEq] at h
      exact ⟨s, rfl, h.symm⟩
  · intro s hwf hempty
    simp [generate_agent_files, rt_schema s hwf, agentFilesOf, hempty, agentFilesLoop]

/-- C2 witness: the amended behavior evaluated on `exampleEmptySchema`. -/
theorem generate_agent_files_parse_only_witness :
    isValidationError (generate_agent_files (tjSchema exampleEmptySchema)) = false ∧
    schemaCritLe 255 exampleEmptySchema = true ∧
    exampleEmptySchema.directory_structure = [] ∧
    generate_agent_files (tjSchema exampleEmptySchema) = .ok [] :=
  ⟨generate_agent_files_parse_only.1 (tjSchema exampleEmptySchema), by decide, rfl,
   generate_agent_files_parse_only.2.2.2 exampleEmptySchema (by decide) rfl⟩

/-- C2 counterexample: the claim as stated is false — a schema text with
an empty `directory_structure` is not rejected with a ValidationError but
accepted (yielding `ok []`), and a criticality of 11 (outside [0,10]) is
likewise accepted. -/
theorem generate_agent_files_validation_counterexample :
    generate_agent_files (tjSchema exampleEmptySchema) = .ok [] ∧
    isValidationError (generate_agent_files (tjSchema exampleEmptySchema)) = false ∧
    generate_agent_files (tjSchema exampleC11Schema) = .ok (agentFilesOf exampleC11Schema) ∧
    isValidationError (generate_agent_files (tjSchema exampleC11Schema)) = false := by
  have h1 : fjSchema (tjSchema exampleEmptySchema) = .ok exampleEmptySchema :=
    rt_schema _ (by decide)
  have h2 : fjSchema (tjSchema exampleC11Schema) = .ok exampleC11Schema :=
    rt_schema _ (by decide)
  refine ⟨?_, ?_, ?_, ?_⟩
  · simp only [generate_agent_files, h1]
    simp [agentFilesOf, exampleEmptySchema, agentFilesLoop]
  · simp only [generate_agent_files, h1, isValidationError]
  · simp only [generate_agent_files, h2]
  · simp only [generate_agent_files, h2, isValidationError]

set_option maxRecDepth 100000 in
/-- C1: the two presentations of the tie map really are the same map
(each is a permutation of the other), yet `generate_directory_docs`
renders them to different bytes: the sort at main.rs:397-398 compares
only criticality, so a criticality tie is left in map-iteration order and
the output depends on it — no file-name tie-break exists. -/
theorem directory_docs_tiebreak_counterexample :
    tieFilesBA.Perm tieFilesAB ∧
    tieDirAB.files = tieFilesAB ∧
    tieDirBA.files = tieFilesBA ∧
    generate_directory_docs "src" tieDirAB tieSchema ≠
      generate_directory_docs "src" tieDirBA tieSchema := by
  refine ⟨by decide, rfl, rfl, by decide⟩

theorem insertByCritDesc_perm (a : String × FileConfig) (l : List (String × FileConfig)) :
    (insertByCritDesc a l).Perm (a :: l) := by
  induction l with
  | nil => exact List.Perm.refl _
  | cons b bs ih =>
    simp only [insertByCritDesc]
    split
    · exact List.Perm.refl _
    · exact (List.Perm.cons b ih).trans (List.Perm.swap a b bs)

theorem sortByCritDesc_aux_perm (l acc : List (String × FileConfig)) :
    (l.foldl (fun acc a => insertByCritDesc a acc) acc).Perm (acc ++ l) := by
  induction l generalizing acc with
  | nil => simp
  | cons x xs ih =>
    have h1 : ((x :: xs).foldl (fun acc a => insertByCritDesc a acc) acc)
        = xs.foldl (fun acc a => insertByCritDesc a acc) (insertByCritDesc x acc) := rfl
    rw [h1]
    have h2 := ih (insertByCritDesc x acc)
    have h3 : (insertByCritDesc x acc ++ xs).Perm ((x :: acc) ++ xs) :=
      (insertByCritDesc_perm x acc).append_right xs
    have h4 : ((x :: acc) ++ xs).Perm (acc ++ x :: xs) := by
      simpa using (List.perm_middle).symm
    exact (h2.trans h3).trans h4

theorem sortByCritDesc_perm (l : List (String × FileConfig)) :
    (sortByCritDesc l).Perm l := by
  simpa using sortByCritDesc_aux_perm l []

theorem mem_sortByCritDesc (nf : String × FileConfig) (l : List (String × FileConfig)) :
    nf ∈ sortByCritDesc l ↔ nf ∈ l :=
  (sortByCritDesc_perm l).mem_iff

/-- C5: in `generate_directory_docs` the three criticality bands are
disjoint and exhaustive: a file with criticality ≥ 9 is only in the
critical band, one in [7,9) only in the important band, one below 7 only
in the supporting band; the three bands together are a permutation of the
directory's files; and the supporting-files section (with its heading) is
emitted exactly when some file has criticality < 7. -/
theorem directory_docs_bands (files : List (String × FileConfig)) :
    (∀ nf ∈ sortByCritDesc files,
      (9 ≤ nf.2.criticality →
        nf ∈ criticalBand (sortByCritDesc files) ∧
        nf ∉ importantBand (sortByCritDesc files) ∧
        nf ∉ supportingBand (sortByCritDesc files)) ∧
      (7 ≤ nf.2.criticality → nf.2.criticality < 9 →
        nf ∈ importantBand (sortByCritDesc files) ∧
        nf ∉ criticalBand (sortByCritDesc files) ∧
        nf ∉ supportingBand (sortByCritDesc files)) ∧
      (nf.2.criticality < 7 →
        nf ∈ supportingBand (sortByCritDesc files) ∧
        nf ∉ criticalBand (sortByCritDesc files) ∧
        nf ∉ importantBand (sortByCritDesc files))) ∧
    (criticalBand (sortByCritDesc files) ++ importantBand (sortByCritDesc files) ++
      supportingBand (sortByCritDesc files)).Perm files ∧
    (supportingSection (sortByCritDesc files) = "" ↔
      ∀ nf ∈ files, 7 ≤ nf.2.criticality) := by
  refine ⟨?_, ?_, ?_⟩
  · intro nf hnf
    refine ⟨fun h9 => ?_, fun h7 h9 => ?_, fun h7 => ?_⟩
    · refine ⟨List.mem_filter.mpr ⟨hnf, by simpa using h9⟩, fun hmem => ?_, fun hmem => ?_⟩
      · have := (List.mem_filter.mp hmem).2
        simp only [Bool.and_eq_true, decide_eq_true_eq] at this
        omega
      · have := (List.mem_filter.mp hmem).2
        simp only [decide_eq_true_eq] at this
        omega
    · refine ⟨List.mem_filter.mpr ⟨hnf, ?_⟩, fun hmem => ?_, fun hmem => ?_⟩
      · simp only [Bool.and_eq_true, decide_eq_true_eq]
        omega
      · have := (List.mem_filter.mp hmem).2
        simp only [decide_eq_true_eq] at this
        omega
      · have := (List.mem_filter.mp hmem).2
        simp only [decide_eq_true_eq] at this
        omega
    · refine ⟨List.mem_filter.mpr ⟨hnf, by simpa using h7⟩, fun hmem => ?_, fun hmem => ?_⟩
      · have := (List.mem_filter.mp hmem).2
        simp only [decide_eq_true_eq] at this
        omega
      · have := (List.mem_filter.mp hmem).2
        simp only [Bool.and_eq_true, decide_eq_true_eq] at this
        omega
  · have hImp : importantBand (sortByCritDesc files) =
        List.filter (fun nf => 7 ≤ nf.2.criticality && nf.2.criticality < 9)
          (List.filter (fun nf => !decide (9 ≤ nf.2.criticality)) (sortByCritDesc files)) := by
      rw [List.filter_filter]
      refine (List.filter_congr ?_).symm
      intro nf _
      rw [Bool.eq_iff_iff]
      simp
      try omega
    have hSup : supportingBand (sortByCritDesc files) =
        List.filter (fun nf => !(7 ≤ nf.2.criticality && nf.2.criticality < 9))
          (List.filter (fun nf => !decide (9 ≤ nf.2.criticality)) (sortByCritDesc files)) := by
      rw [List.filter_filter]
      refine (List.filter_congr ?_).symm
      intro nf _
      rw [Bool.eq_iff_iff]
      simp
      try omega
    have hBC : (importantBand (sortByCritDesc files) ++
        supportingBand (sortByCritDesc files)).Perm
          (List.filter (fun nf => !decide (9 ≤ nf.2.criticality)) (sortByCritDesc files)) := by
      rw [hImp, hSup]
      exact List.filter_append_perm _ _
    have hA : (criticalBand (sortByCritDesc files) ++
        (importantBand (sortByCritDesc files) ++ supportingBand (sortByCritDesc files))).Perm
          (sortByCritDesc files) := by
      refine List.Perm.trans (List.Perm.append_left _ hBC) ?_
      exact List.filter_append_perm _ _
    have := hA.trans (sortByCritDesc_perm files)
    simpa [List.append_assoc] using this
  · constructor
    · intro h nf hnf
      by_contra hlt
      push_neg at hlt
      have hany : (sortByCritDesc files).any (fun nf => nf.2.criticality < 7) = true := by
        refine List.any_eq_true.mpr ⟨nf, (mem_sortByCritDesc nf files).mpr hnf, ?_⟩
        simpa using hlt
      rw [supportingSection, if_pos hany] at h
      have hlen := congrArg String.length h
      rw [String.length_append] at hlen
      simp only [String.length_empty] at hlen
      have h49 : ("\n## Supporting Files (Can be modified with care)\n").length = 49 := by decide
      omega
    · intro h
      have hany : (sortByCritDesc files).any (fun nf => nf.2.criticality < 7) = false := by
        refine List.any_eq_false.mpr ?_
        intro nf hnf
        have h7 := h nf ((mem_sortByCritDesc nf files).mp hnf)
        simp
        omega
      rw [supportingSection, if_neg (by simp [hany])]

/-- C5 witness: the band facts evaluated on `bandFiles` (criticalities 9,
7 and 5). -/
theorem directory_docs_bands_witness :
    ("hi", (⟨9, "svc", "p9", [], none, none, none⟩ : FileConfig)) ∈
      criticalBand (sortByCritDesc bandFiles) ∧
    ("mid", (⟨7, "svc", "p7", [], none, none, none⟩ : FileConfig)) ∈
      importantBand (sortByCritDesc bandFiles) ∧
    ("low", (⟨5, "svc", "p5", [], none, none, none⟩ : FileConfig)) ∈
      supportingBand (sortByCritDesc bandFiles) ∧
    ¬(supportingSection (sortByCritDesc bandFiles) = "") := by
  have h := directory_docs_bands bandFiles
  refine ⟨?_, ?_, ?_, ?_⟩
  · exact ((h.1 _ (by decide)).1 (by decide)).1
  · exact ((h.1 _ (by decide)).2.1 (by decide) (by decide)).1
  · exact ((h.1 _ (by decide)).2.2 (by decide)).1
  · intro he
    have h5 := (h.2.2.mp he) ("low", ⟨5, "svc", "p5", [], none, none, none⟩) (by decide)
    exact absurd h5 (by decide)

theorem agentFilesLoop_length (schema : CommunicationSchema)
    (l : List (String × DirectoryConfig)) :
    (agentFilesLoop schema l).length = 2 * l.length := by
  induction l with
  | nil => rfl
  | cons hd tl ih =>
    obtain ⟨d, cfg⟩ := hd
    simp only [agentFilesLoop, List.length_cons, ih]
    omega

theorem agentFilesLoop_index (schema : CommunicationSchema)
    (l : List (String × DirectoryConfig)) :
    ∀ i, i < l.length →
      ∃ d cfg, l[i]? = some (d, cfg) ∧
        (agentFilesLoop schema l)[2 * i]? =
          some ⟨trimEndSlashes d ++ "/README.md", generate_directory_docs d cfg schema⟩ ∧
        (agentFilesLoop schema l)[2 * i + 1]? =
          some ⟨trimEndSlashes d ++ "/AGENT.md", generate_directory_docs d cfg schema⟩ := by
  induction l with
  | nil => intro i hi; simp at hi
  | cons hd tl ih =>
    intro i hi
    obtain ⟨d, cfg⟩ := hd
    cases i with
    | zero =>
      exact ⟨d, cfg, by simp, by norm_num [agentFilesLoop], by norm_num [agentFilesLoop]⟩
    | succ i =>
      have hi2 : i < tl.length := by simpa using hi
      obtain ⟨d2, cfg2, h1, h2, h3⟩ := ih i hi2
      refine ⟨d2, cfg2, by simpa using h1, ?_, ?_⟩
      · have he : 2 * (i + 1) = 2 * i + 1 + 1 := by omega
        rw [he]
        simpa [agentFilesLoop, List.getElem?_cons_succ] using h2
      · have he : 2 * (i + 1) + 1 = 2 * i + 1 + 1 + 1 := by omega
        rw [he]
        simpa [agentFilesLoop, List.getElem?_cons_succ] using h3

/-- C6: for every schema text `generate_agent_files` accepts, it emits
exactly two artifacts per `directory_structure` entry — the entry's
`<dir>/README.md` and `<dir>/AGENT.md` (with trailing slashes of the key
trimmed) — carrying identical rendered content, so the artifact count is
twice the number of directory entries. -/
theorem agent_files_two_per_directory (j : Json) (schema : CommunicationSchema)
    (hp : fjSchema j = .ok schema) :
    generate_agent_files j = .ok (agentFilesOf schema) ∧
    (agentFilesOf schema).length = 2 * schema.directory_structure.length ∧
    ∀ i, i < schema.directory_structure.length →
      ∃ d cfg, schema.directory_structure[i]? = some (d, cfg) ∧
        (agentFilesOf schema)[2 * i]? =
          some ⟨trimEndSlashes d ++ "/README.md", generate_directory_docs d cfg schema⟩ ∧
        (agentFilesOf schema)[2 * i + 1]? =
          some ⟨trimEndSlashes d ++ "/AGENT.md", generate_directory_docs d cfg schema⟩ := by
  refine ⟨by simp [generate_agent_files, hp], agentFilesLoop_length schema _, ?_⟩
  exact agentFilesLoop_index schema schema.directory_structure

/-- C6 witness: the pairing evaluated on `exampleSchema`. -/
theorem agent_files_two_per_directory_witness :
    generate_agent_files (tjSchema exampleSchema) = .ok (agentFilesOf exampleSchema) ∧
    (agentFilesOf exampleSchema).length = 2 * exampleSchema.directory_structure.length ∧
    ∀ i, i < exampleSchema.directory_structure.length →
      ∃ d cfg, exampleSchema.directory_structure[i]? = some (d, cfg) ∧
        (agentFilesOf exampleSchema)[2 * i]? =
          some ⟨trimEndSlashes d ++ "/README.md", generate_directory_docs d cfg exampleSchema⟩ ∧
        (agentFilesOf exampleSchema)[2 * i + 1]? =
          some ⟨trimEndSlashes d ++ "/AGENT.md", generate_directory_docs d cfg exampleSchema⟩ :=
  agent_files_two_per_directory (tjSchema exampleSchema) exampleSchema
    (rt_schema exampleSchema (by decide))

theorem head?_dropWhileSlash (l : List Char) :
    (l.dropWhile (fun c => c = '/')).head? ≠ some '/' := by
  induction l with
  | nil => simp
  | cons c cs ih =>
    by_cases hc : c = '/'
    · simpa [List.dropWhile, hc] using ih
    · simp [List.dropWhile, hc]

theorem trimEndSlashes_append_slash (d : String) :
    trimEndSlashes (d ++ "/") = trimEndSlashes d := by
  simp [trimEndSlashes, String.data_append, List.dropWhile]

/-- C10: `generate_agent_files` trims every trailing `'/'` from a
directory key before composing artifact paths: the keys `d`, `d ++ "/"`
and `d ++ "//"` yield identical artifact paths, and no trimmed key ends
in `'/'`, so the artifact paths never contain a doubled slash at the
junction. -/
theorem trailing_slash_normalization (schema : CommunicationSchema) (d : String)
    (cfg : DirectoryConfig) :
    trimEndSlashes (d ++ "/") = trimEndSlashes d ∧
    trimEndSlashes (d ++ "//") = trimEndSlashes d ∧
    (agentFilesLoop schema [(d ++ "/", cfg)]).map AgentFile.path =
      (agentFilesLoop schema [(d, cfg)]).map AgentFile.path ∧
    (agentFilesLoop schema [(d ++ "//", cfg)]).map AgentFile.path =
      (agentFilesLoop schema [(d, cfg)]).map AgentFile.path ∧
    (trimEndSlashes d).data.getLast? ≠ some '/' := by
  have h1 : trimEndSlashes (d ++ "/") = trimEndSlashes d := trimEndSlashes_append_slash d
  have h2 : trimEndSlashes (d ++ "//") = trimEndSlashes d := by
    simp [trimEndSlashes, String.data_append, List.dropWhile]
  refine ⟨h1, h2, ?_, ?_, ?_⟩
  · simp [agentFilesLoop, h1]
  · simp [agentFilesLoop, h2]
  · simp only [trimEndSlashes, List.getLast?_reverse]
    exact head?_dropWhileSlash d.data.reverse

/-- C10 witness: the normalization evaluated at the key "src". -/
theorem trailing_slash_normalization_witness :
    trimEndSlashes ("src" ++ "/") = trimEndSlashes "src" ∧
    trimEndSlashes ("src" ++ "//") = trimEndSlashes "src" ∧
    (agentFilesLoop exampleSchema [("src" ++ "/", exampleDC)]).map AgentFile.path =
      (agentFilesLoop exampleSchema [("src", exampleDC)]).map AgentFile.path ∧
    (agentFilesLoop exampleSchema [("src" ++ "//", exampleDC)]).map AgentFile.path =
      (agentFilesLoop exampleSchema [("src", exampleDC)]).map AgentFile.path ∧
    (trimEndSlashes "src").data.getLast? ≠ some '/' :=
  trailing_slash_normalization exampleSchema "src" exampleDC

theorem commitSeq_append (commit : CommitFn) (repo : String) (l1 l2 : List AgentFile) :
    commitSeq commit repo (l1 ++ l2) =
      match commitSeq commit repo l1 with
      | (.error e, tr) => (.error e, tr)
      | (.ok _, tr) =>
        ((commitSeq commit repo l2).1, tr ++ (commitSeq commit repo l2).2) := by
  induction l1 with
  | nil => simp [commitSeq]
  | cons f fs ih =>
    simp only [List.cons_append, commitSeq]
    cases hc : commit repo f.path f.content ("Add " ++ f.path) with
    | error e => rfl
    | ok u =>
      simp only [List.append_eq, ih]
      rcases hfs : commitSeq commit repo fs with ⟨r, tr⟩
      cases r with
      | error e => rfl
      | ok u2 => rfl

theorem commitChunks_chunksOf_aux (commit : CommitFn) (repo : String) (n : Nat)
    (hn : 1 ≤ n) (m : Nat) :
    ∀ l : List AgentFile, l.length ≤ m →
      commitChunks commit repo (chunksOf n l) = commitSeq commit repo l := by
  induction m with
  | zero =>
    intro l hl
    have : l = [] := List.length_eq_zero.mp (Nat.le_zero.mp hl)
    subst this
    simp [chunksOf, commitChunks, commitSeq]
  | succ m ih =>
    intro l hl
    cases l with
    | nil => simp [chunksOf, commitChunks, commitSeq]
    | cons x xs =>
      rw [chunksOf]
      have hjoin : (x :: xs.take (n - 1)) ++ xs.drop (n - 1) = x :: xs := by
        simp [List.take_append_drop]
      have hlen : (xs.drop (n - 1)).length ≤ m := by
        have := List.length_drop (n - 1) xs
        simp only [List.length_cons] at hl
        omega
      have ihd := ih (xs.drop (n - 1)) hlen
      simp only [commitChunks, ihd]
      conv_rhs => rw [← hjoin]
      rw [commitSeq_append]

theorem create_directory_structure_flat (commit : CommitFn) (repo : String)
    (files : List AgentFile) :
    create_directory_structure commit repo files = commitSeq commit repo files :=
  commitChunks_chunksOf_aux commit repo 10 (by omega) files.length files le_rfl

theorem commitSeq_all_ok (commit : CommitFn) (repo : String) (files : List AgentFile)
    (h : ∀ f ∈ files, commit repo f.path f.content ("Add " ++ f.path) = .ok ()) :
    commitSeq commit repo files =
      (.ok (), files.flatMap (fun f => [GEvent.commit f.path, GEvent.sleep 100])) := by
  induction files with
  | nil => rfl
  | cons f fs ih =>
    have hf := h f (List.mem_cons_self _ _)
    have hfs := ih (fun g hg => h g (List.mem_cons_of_mem _ hg))
    simp only [commitSeq, hf, hfs, List.flatMap_cons]
    rfl

/-- C4: `create_directory_structure` commits the input files strictly in
input order (in batches of 10) via `create_file`, sleeping 100ms after
each successful commit; when every commit succeeds the trace is exactly
one commit-then-sleep pair per file in input order, and on the first
failing commit the call returns that `RemoteServiceError` at once: every
file before the failing one has been committed (and nothing is ever
removed — the trace contains only commit and sleep events), the failing
file's commit was attempted, and no later file is attempted — there is no
retry and no backoff. -/
theorem create_directory_structure_spec (commit : CommitFn) (repo : String) :
    (∀ files : List AgentFile,
      (∀ f ∈ files, commit repo f.path f.content ("Add " ++ f.path) = .ok ()) →
      create_directory_structure commit repo files =
        (.ok (), files.flatMap (fun f => [GEvent.commit f.path, GEvent.sleep 100]))) ∧
    (∀ (pre : List AgentFile) (bad : AgentFile) (post : List AgentFile) (m : String),
      (∀ f ∈ pre, commit repo f.path f.content ("Add " ++ f.path) = .ok ()) →
      commit repo bad.path bad.content ("Add " ++ bad.path) = .error (.remote m) →
      create_directory_structure commit repo (pre ++ bad :: post) =
        (.error (.remote m),
         pre.flatMap (fun f => [GEvent.commit f.path, GEvent.sleep 100]) ++
           [GEvent.commit bad.path])) := by
  constructor
  · intro files h
    rw [create_directory_structure_flat]
    exact commitSeq_all_ok commit repo files h
  · intro pre bad post m hpre hbad
    rw [create_directory_structure_flat, commitSeq_append,
      commitSeq_all_ok commit repo pre hpre]
    simp only [commitSeq, hbad]

/-- C4 witness: twenty files with a host failure forced on file 15:
files 1-14 are committed (each followed by the 100ms sleep), file 15
returns the RemoteServiceError, and files 16-20 are never attempted. -/
theorem create_directory_structure_spec_witness :
    scaffoldFiles20 = scaffoldPre14 ++ scaffoldFile15 :: scaffoldPost5 ∧
    create_directory_structure commitFail15 "repo" scaffoldFiles20 =
      (.error (.remote "rate limited"),
       scaffoldPre14.flatMap (fun f => [GEvent.commit f.path, GEvent.sleep 100]) ++
         [GEvent.commit scaffoldFile15.path]) := by
  have hsplit : scaffoldFiles20 = scaffoldPre14 ++ scaffoldFile15 :: scaffoldPost5 := by decide
  refine ⟨hsplit, ?_⟩
  rw [hsplit]
  exact (create_directory_structure_spec commitFail15 "repo").2 scaffoldPre14 scaffoldFile15
    scaffoldPost5 "rate limited" (by decide) (by decide)

/-- C8: a run of `process_generation` that returns success executed the
eight stages in the fixed order DevPlan, Architecture, Blueprint, Readme,
DirectoryTree, CommunicationSchema, AgentFiles, GitHubScaffold — the
trace is exactly the canonical interleaving in which each stage's
`save_document` happens before the next stage's invocation — and each
stage's output is obtained by applying that stage to the outputs of
earlier stages only. -/
theorem pipeline_stage_order (env : Env) (prompt : String) (db db2 : DB)
    (tr : List Event)
    (h : process_generation env prompt db = (.ok (), db2, tr)) :
    ∃ dp a bp rm t sc af,
      generate_dev_plan env prompt = .ok dp ∧
      generate_architecture env dp = .ok a ∧
      generate_blueprint env dp a = .ok bp ∧
      generate_readme env dp a bp = .ok rm ∧
      generate_tree env bp = .ok t ∧
      generate_communication_schema env dp a bp t = .ok sc ∧
      generate_agent_files_str env sc = .ok af ∧
      env.scaffold env.project_name sc af = .ok () ∧
      tr = [.stageCall .devPlan, .save "dev_plan" dp,
            .stageCall .architecture, .save "architecture" a,
            .stageCall .blueprint, .save "blueprint" bp,
            .stageCall .readme, .save "readme" rm,
            .stageCall .directoryTree, .save "tree" t,
            .stageCall .communicationSchema, .save "schema" sc,
            .stageCall .agentFiles, .save "agents" (agentsToString af),
            .stageCall .gitHubScaffold, .statusUpdate .completed] ∧
      stepsOf tr = canonicalSteps ∧
      db2.docs = applySaves db.docs (savesOf tr) ∧
      db2.status = .completed := by
  rw [process_generation] at h
  cases hdp : generate_dev_plan env prompt with
  | error m => rw [hdp] at h; simp only [pstep] at h; simp at h
  | ok dp =>
  rw [hdp] at h
  simp only [pstep] at h
  cases ha : generate_architecture env dp with
  | error m => rw [ha] at h; simp only [pstep] at h; simp at h
  | ok a =>
  rw [ha] at h
  simp only [pstep] at h
  cases hbp : generate_blueprint env dp a with
  | error m => rw [hbp] at h; simp only [pstep] at h; simp at h
  | ok bp =>
  rw [hbp] at h
  simp only [pstep] at h
  cases hrm : generate_readme env dp a bp with
  | error m => rw [hrm] at h; simp only [pstep] at h; simp at h
  | ok rm =>
  rw [hrm] at h
  simp only [pstep] at h
  cases ht : generate_tree env bp with
  | error m => rw [ht] at h; simp only [pstep] at h; simp at h
  | ok t =>
  rw [ht] at h
  simp only [pstep] at h
  cases hsc : generate_communication_schema env dp a bp t with
  | error m => rw [hsc] at h; simp only [pstep] at h; simp at h
  | ok sc =>
  rw [hsc] at h
  simp only [pstep] at h
  cases haf : generate_agent_files_str env sc with
  | error m => rw [haf] at h; simp only [pstep] at h; simp at h
  | ok af =>
  rw [haf] at h
  simp only [pstep] at h
  cases hsg : env.scaffold env.project_name sc af with
  | error m => rw [hsg] at h; simp only [pstep] at h; simp at h
  | ok u =>
  rw [hsg] at h
  simp only [pstep, Prod.mk.injEq, true_and] at h
  obtain ⟨hdb2, htr⟩ := h
  cases u
  refine ⟨dp, a, bp, rm, t, sc, af, rfl, ha, hbp, hrm, ht, hsc, haf, hsg, ?_, ?_, ?_, ?_⟩
  · simp only [List.nil_append, List.cons_append] at htr
    exact htr.symm
  · rw [← htr]
    rfl
  · rw [← htr, ← hdb2]
    simp only [savesOf, applySaves, save_document, List.filterMap_cons, List.filterMap_nil,
      List.foldl_cons, List.foldl_nil, List.cons_append, List.nil_append]
  · rw [← hdb2]

theorem process_generation_env0 :
    process_generation env0 "build a todo app" dbInit = (.ok (), db2Ex, trEx) := by
  have hs : fjSchema (tjSchema exampleSchema) = .ok exampleSchema :=
    rt_schema exampleSchema (by decide)
  simp only [process_generation, pstep, generate_dev_plan, generate_architecture,
    generate_blueprint, generate_readme, generate_tree, generate_communication_schema,
    generate_agent_files_str, generate_agent_files, env0, hs, save_document, upsert,
    dbInit, db2Ex, trEx, afEx, agentsStrEx]
  simp [agentFilesOf]

/-- C8 witness: the canonical order observed on a fully successful stub
run. -/
theorem pipeline_stage_order_witness :
    process_generation env0 "build a todo app" dbInit = (.ok (), db2Ex, trEx) ∧
    stepsOf trEx = canonicalSteps ∧ db2Ex.status = .completed := by
  have h0 := process_generation_env0
  obtain ⟨dp, a, bp, rm, t, sc, af, -, -, -, -, -, -, -, -, -, hsteps, -, hst⟩ :=
    pipeline_stage_order env0 "build a todo app" dbInit db2Ex trEx h0
  exact ⟨h0, hsteps, hst⟩

set_option maxHeartbeats 2000000 in
theorem process_generation_error (env : Env) (prompt : String) (db : DB)
    (e : Err) (dbp : DB) (trp : List Event)
    (h : process_generation env prompt db = (.error e, dbp, trp)) :
    (∃ rest, stepsOf trp ++ rest = canonicalSteps) ∧
    dbp.docs = applySaves db.docs (savesOf trp) ∧
    dbp.status = db.status := by
  rw [process_generation] at h
  cases hdp : generate_dev_plan env prompt with
  | error m =>
    rw [hdp] at h
    simp only [pstep, Prod.mk.injEq, Except.error.injEq] at h
    obtain ⟨he, hdb, htr⟩ := h
    subst hdb
    subst htr
    refine ⟨⟨[.architecture, .blueprint, .readme, .directoryTree, .communicationSchema, .agentFiles, .gitHubScaffold], rfl⟩, ?_, ?_⟩
    · simp only [savesOf, applySaves, save_document, List.filterMap_cons,
        List.filterMap_nil, List.foldl_cons, List.foldl_nil, List.cons_append,
        List.nil_append]
      try rfl
    · simp [save_document]
  | ok dp =>
  rw [hdp] at h
  simp only [pstep] at h
  cases ha : generate_architecture env dp with
  | error m =>
    rw [ha] at h
    simp only [pstep, Prod.mk.injEq, Except.error.injEq] at h
    obtain ⟨he, hdb, htr⟩ := h
    subst hdb
    subst htr
    refine ⟨⟨[.blueprint, .readme, .directoryTree, .communicationSchema, .agentFiles, .gitHubScaffold], rfl⟩, ?_, ?_⟩
    · simp only [savesOf, applySaves, save_document, List.filterMap_cons,
        List.filterMap_nil, List.foldl_cons, List.foldl_nil, List.cons_append,
        List.nil_append]
      try rfl
    · simp [save_document]
  | ok a =>
  rw [ha] at h
  simp only [pstep] at h
  cases hbp : generate_blueprint env dp a with
  | error m =>
    rw [hbp] at h
    simp only [pstep, Prod.mk.injEq, Except.error.injEq] at h
    obtain ⟨he, hdb, htr⟩ := h
    subst hdb
    subst htr
    refine ⟨⟨[.readme, .directoryTree, .communicationSchema, .agentFiles, .gitHubScaffold], rfl⟩, ?_, ?_⟩
    · simp only [savesOf, applySaves, save_document, List.filterMap_cons,
        List.filterMap_nil, List.foldl_cons, List.foldl_nil, List.cons_append,
        List.nil_append]
      try rfl
    · simp [save_document]
  | ok bp =>
  rw [hbp] at h
  simp only [pstep] at h
  cases hrm : generate_readme env dp a bp with
  | error m =>
    rw [hrm] at h
    simp only [pstep, Prod.mk.injEq, Except.error.injEq] at h
    obtain ⟨he, hdb, htr⟩ := h
    subst hdb
    subst htr
    refine ⟨⟨[.directoryTree, .communicationSchema, .agentFiles, .gitHubScaffold], rfl⟩, ?_, ?_⟩
    · simp only [savesOf, applySaves, save_document, List.filterMap_cons,
        List.filterMap_nil, List.foldl_cons, List.foldl_nil, List.cons_append,
        List.nil_append]
      try rfl
    · simp [save_document]
  | ok rm =>
  rw [hrm] at h
  simp only [pstep] at h
  cases ht : generate_tree env bp with
  | error m =>
    rw [ht] at h
    simp only [pstep, Prod.mk.injEq, Except.error.injEq] at h
    obtain ⟨he, hdb, htr⟩ := h
    subst hdb
    subst htr
    refine ⟨⟨[.communicationSchema, .agentFiles, .gitHubScaffold], rfl⟩, ?_, ?_⟩
    · simp only [savesOf, applySaves, save_document, List.filterMap_cons,
        List.filterMap_nil, List.foldl_cons, List.foldl_nil, List.cons_append,
        List.nil_append]
      try rfl
    · simp [save_document]
  | ok t =>
  rw [ht] at h
  simp only [pstep] at h
  cases hsc : generate_communication_schema env dp a bp t with
  | error m =>
    rw [hsc] at h
    simp only [pstep, Prod.mk.injEq, Except.error.injEq] at h
    obtain ⟨he, hdb, htr⟩ := h
    subst hdb
    subst htr
    refine ⟨⟨[.agentFiles, .gitHubScaffold], rfl⟩, ?_, ?_⟩
    · simp only [savesOf, applySaves, save_document, List.filterMap_cons,
        List.filterMap_nil, List.foldl_cons, List.foldl_nil, List.cons_append,
        List.nil_append]
      try rfl
    · simp [save_document]
  | ok sc =>
  rw [hsc] at h
  simp only [pstep] at h
  cases haf : generate_agent_files_str env sc with
  | error m =>
    rw [haf] at h
    simp only [pstep, Prod.mk.injEq, Except.error.injEq] at h
    obtain ⟨he, hdb, htr⟩ := h
    subst hdb
    subst htr
    refine ⟨⟨[.gitHubScaffold], rfl⟩, ?_, ?_⟩
    · simp only [savesOf, applySaves, save_document, List.filterMap_cons,
        List.filterMap_nil, List.foldl_cons, List.foldl_nil, List.cons_append,
        List.nil_append]
      try rfl
    · simp [save_document]
  | ok af =>
  rw [haf] at h
  simp only [pstep] at h
  cases hsg : env.scaffold env.project_name sc af with
  | error m =>
    rw [hsg] at h
    simp only [pstep, Prod.mk.injEq, Except.error.injEq] at h
    obtain ⟨he, hdb, htr⟩ := h
    subst hdb
    subst htr
    refine ⟨⟨[], rfl⟩, ?_, ?_⟩
    · simp only [savesOf, applySaves, save_document, List.filterMap_cons,
        List.filterMap_nil, List.foldl_cons, List.foldl_nil, List.cons_append,
        List.nil_append]
      try rfl
    · simp [save_document]
  | ok u =>
  rw [hsg] at h
  simp only [pstep] at h
  exact Except.noConfusion (congrArg (fun p => p.1) h)

theorem process_generation_ok_status (env : Env) (prompt : String) (db : DB)
    (u0 : Unit) (dbp : DB) (trp : List Event)
    (h : process_generation env prompt db = (.ok u0, dbp, trp)) :
    dbp.status = .completed := by
  rw [process_generation] at h
  cases hdp : generate_dev_plan env prompt with
  | error m =>
    rw [hdp] at h
    simp only [pstep] at h
    exact Except.noConfusion (congrArg (fun p => p.1) h)
  | ok dp =>
  rw [hdp] at h
  simp only [pstep] at h
  cases ha : generate_architecture env dp with
  | error m =>
    rw [ha] at h
    simp only [pstep] at h
    exact Except.noConfusion (congrArg (fun p => p.1) h)
  | ok a =>
  rw [ha] at h
  simp only [pstep] at h
  cases hbp : generate_blueprint env dp a with
  | error m =>
    rw [hbp] at h
    simp only [pstep] at h
    exact Except.noConfusion (congrArg (fun p => p.1) h)
  | ok bp =>
  rw [hbp] at h
  simp only [pstep] at h
  cases hrm : generate_readme env dp a bp with
  | error m =>
    rw [hrm] at h
    simp only [pstep] at h
    exact Except.noConfusion (congrArg (fun p => p.1) h)
  | ok rm =>
  rw [hrm] at h
  simp only [pstep] at h
  cases ht : generate_tree env bp with
  | error m =>
    rw [ht] at h
    simp only [pstep] at h
    exact Except.noConfusion (congrArg (fun p => p.1) h)
  | ok t =>
  rw [ht] at h
  simp only [pstep] at h
  cases hsc : generate_communication_schema env dp a bp t with
  | error m =>
    rw [hsc] at h
    simp only [pstep] at h
    exact Except.noConfusion (congrArg (fun p => p.1) h)
  | ok sc =>
  rw [hsc] at h
  simp only [pstep] at h
  cases haf : generate_agent_files_str env sc with
  | error m =>
    rw [haf] at h
    simp only [pstep] at h
    exact Except.noConfusion (congrArg (fun p => p.1) h)
  | ok af =>
  rw [haf] at h
  simp only [pstep] at h
  cases hsg : env.scaffold env.project_name sc af with
  | error m =>
    rw [hsg] at h
    simp only [pstep] at h
    exact Except.noConfusion (congrArg (fun p => p.1) h)
  | ok u =>
  rw [hsg] at h
  simp only [pstep] at h
  simp only [Prod.mk.injEq] at h
  rw [← h.2.1]

theorem stepsOf_append (t1 t2 : List Event) :
    stepsOf (t1 ++ t2) = stepsOf t1 ++ stepsOf t2 := by
  simp [stepsOf, List.filterMap_append]

theorem savesOf_append (t1 t2 : List Event) :
    savesOf (t1 ++ t2) = savesOf t1 ++ savesOf t2 := by
  simp [savesOf, List.filterMap_append]

/-- C3: in every run of the pipeline, a stage failure aborts the
remainder — the stages invoked form a prefix of the canonical eight-stage
sequence — the project/job status becomes `Failed` carrying the failing
reason verbatim, and the store still holds exactly the initial documents
upserted with every save the completed stages performed (no rollback);
when all eight stages succeed the status becomes `Completed`. -/
theorem pipeline_failure_semantics (env : Env) (prompt : String) (db : DB) :
    (∀ (e : Err) (db2 : DB) (tr : List Event),
      run_generation env prompt db = (.error e, db2, tr) →
      db2.status = .failed e.message ∧
      (∃ rest, stepsOf tr ++ rest = canonicalSteps) ∧
      db2.docs = applySaves db.docs (savesOf tr)) ∧
    (∀ (db2 : DB) (tr : List Event),
      run_generation env prompt db = (.ok (), db2, tr) → db2.status = .completed) := by
  constructor
  · intro e db2 tr h
    rw [run_generation] at h
    rcases hp : process_generation env prompt db with ⟨r, dbp, trp⟩
    rw [hp] at h
    cases r with
    | ok u => exact Except.noConfusion (congrArg (fun p => p.1) h)
    | error e2 =>
      simp only [Prod.mk.injEq, Except.error.injEq] at h
      obtain ⟨he, hdb2, htr⟩ := h
      subst he
      obtain ⟨hpre, hdocs, -⟩ := process_generation_error env prompt db e2 dbp trp hp
      refine ⟨?_, ?_, ?_⟩
      · rw [← hdb2]
      · obtain ⟨rest, hrest⟩ := hpre
        refine ⟨rest, ?_⟩
        rw [← htr, stepsOf_append]
        simpa [stepsOf] using hrest
      · rw [← hdb2, ← htr, savesOf_append]
        simp only [savesOf, List.filterMap_cons, List.filterMap_nil, List.append_nil]
        exact hdocs
  · intro db2 tr h
    rw [run_generation] at h
    rcases hp : process_generation env prompt db with ⟨r, dbp, trp⟩
    rw [hp] at h
    cases r with
    | error e2 => exact Except.noConfusion (congrArg (fun p => p.1) h)
    | ok u =>
      simp only [Prod.mk.injEq] at h
      rw [← h.2.1]
      exact process_generation_ok_status env prompt db u dbp trp hp

/-- C3 witness: a forced Architecture-stage provider failure halts the
pipeline after DevPlan, records Failed with the verbatim reason, and the
DevPlan document remains persisted. -/
theorem pipeline_failure_semantics_witness :
    run_generation envArchFail "build a todo app" dbInit =
      (.error (.provider "architecture provider down"),
       ⟨[("dev_plan", "OA")], .failed "architecture provider down"⟩,
       [.stageCall .devPlan, .save "dev_plan" "OA", .stageCall .architecture,
        .statusUpdate (.failed "architecture provider down")]) ∧
    (⟨[("dev_plan", "OA")], .failed "architecture provider down"⟩ : DB).status =
      .failed (Err.provider "architecture provider down").message ∧
    (∃ rest,
      stepsOf [.stageCall .devPlan, .save "dev_plan" "OA", .stageCall .architecture,
        .statusUpdate (.failed "architecture provider down")] ++ rest = canonicalSteps) ∧
    (⟨[("dev_plan", "OA")], .failed "architecture provider down"⟩ : DB).docs =
      applySaves dbInit.docs
        (savesOf [.stageCall .devPlan, .save "dev_plan" "OA", .stageCall .architecture,
          .statusUpdate (.failed "architecture provider down")]) := by
  have h0 : run_generation envArchFail "build a todo app" dbInit =
      (.error (.provider "architecture provider down"),
       ⟨[("dev_plan", "OA")], .failed "architecture provider down"⟩,
       [.stageCall .devPlan, .save "dev_plan" "OA", .stageCall .architecture,
        .statusUpdate (.failed "architecture provider down")]) := by
    simp only [run_generation, process_generation, pstep, generate_dev_plan,
      generate_architecture, envArchFail, env0, save_document, upsert, dbInit, Err.message]
    simp
  obtain ⟨h1, h2, h3⟩ :=
    (pipeline_failure_semantics envArchFail "build a todo app" dbInit).1
      (.provider "architecture provider down")
      ⟨[("dev_plan", "OA")], .failed "architecture provider down"⟩
      [.stageCall .devPlan, .save "dev_plan" "OA", .stageCall .architecture,
       .statusUpdate (.failed "architecture provider down")] h0
  exact ⟨h0, h1, h2, h3⟩

/-- C9: the status match in `list_projects` and `get_project` decodes the
three known strings to their variants and every other stored string —
including corrupted values — to `Pending`; decoding is a total function,
so fetching never fails on an unexpected status string. -/
theorem project_status_unknown_decodes_pending :
    (∀ row : ProjectRow, row.status ≠ "generating" → row.status ≠ "complete" →
      row.status ≠ "failed" → (rowToProject row).status = ProjectStatus.pending) ∧
    (∀ (rows : List ProjectRow) (row : ProjectRow), row ∈ rows →
      rowToProject row ∈ list_projects rows) ∧
    (∀ row : ProjectRow, get_project (some row) = some (rowToProject row)) ∧
    get_project none = none := by
  refine ⟨?_, ?_, ?_, rfl⟩
  · intro row h1 h2 h3
    simp only [rowToProject]
  · intro rows row hr
    exact List.mem_map_of_mem rowToProject hr
  · intro row
    rfl

/-- C9 witness: a corrupted status string decodes to Pending through both
fetch paths. -/
theorem project_status_unknown_decodes_pending_witness :
    (rowToProject ⟨"id1", "u1", "p", none, "corrupted", 0, none, [], 0, 0⟩).status =
      ProjectStatus.pending ∧
    rowToProject ⟨"id1", "u1", "p", none, "corrupted", 0, none, [], 0, 0⟩ ∈
      list_projects [⟨"id1", "u1", "p", none, "corrupted", 0, none, [], 0, 0⟩] ∧
    get_project (some ⟨"id1", "u1", "p", none, "corrupted", 0, none, [], 0, 0⟩) =
      some (rowToProject ⟨"id1", "u1", "p", none, "corrupted", 0, none, [], 0, 0⟩) :=
  ⟨project_status_unknown_decodes_pending.1 _ (by decide) (by decide) (by decide),
   project_status_unknown_decodes_pending.2.1 _ _ (by simp),
   project_status_unknown_decodes_pending.2.2.1 _⟩
